import Mathlib

/-!
Shallow embedding of the scenario-selection / event-lifecycle engine of
`simulation_game_ui_hud/scenario_engine_choices.py`.

Modelling conventions:
* Monetary amounts, probabilities stored in data, and weights are `ℚ`
  (the source computes with floats; only the arithmetic protocol matters).
* The composed occurrence probability needs a real n-th root (the source's
  `prod ** (1.0 / len(values))`), so the probability composer lives in `ℝ`.
* Randomness is an oracle: a fixed pair of streams `RngSrc` (uniform draws
  in `[0,1)` for `random.random` / `np.random.uniform` / `random.choice`,
  and raw magnitude draws for the normal / lognormal samplers) together
  with a position counter `Rng` threaded through the engine, mirroring the
  source's global mutable generators.
* Python dicts keyed by day become association lists; `uuid`-based ids
  become a `Nat` counter threaded in the engine state.
-/

set_option maxHeartbeats 1000000

namespace ScenarioEngine

/-- Oracle random source: `unif n` is the n-th uniform draw, `mag n` the
n-th magnitude draw for the normal/lognormal samplers. -/
structure RngSrc where
  unif : Nat → ℚ
  mag : Nat → ℚ

/-- Position of the engine inside the two oracle streams. -/
structure Rng where
  u : Nat
  m : Nat
deriving DecidableEq

def Rng.nextU (src : RngSrc) (r : Rng) : ℚ × Rng :=
  (src.unif r.u, { r with u := r.u + 1 })

def Rng.nextM (src : RngSrc) (r : Rng) : ℚ × Rng :=
  (src.mag r.m, { r with m := r.m + 1 })

/-- All uniform draws of the source lie in `[0,1)`, as `random.random` and
the normalized numpy draws do. -/
def RngOk (src : RngSrc) : Prop := ∀ n, 0 ≤ src.unif n ∧ src.unif n < 1

/-- Python `round(x, 2)`: round half to even at two decimal places. -/
def roundHalfEven (q : ℚ) : ℤ :=
  let f := ⌊q⌋
  if q - f < 1/2 then f
  else if q - f > 1/2 then f + 1
  else if f % 2 = 0 then f else f + 1

def round2 (q : ℚ) : ℚ := (roundHalfEven (q * 100) : ℚ) / 100

/-- Python substring test `needle in hay` (`"" in s` is `True`). -/
def strContains (hay needle : String) : Bool :=
  needle.isEmpty || (hay.splitOn needle).length > 1

/-- `scn["name"].lower().replace(" ", "_")`. -/
def normName (s : String) : String := (s.toLower).replace " " "_"

/-- Cumulative-weight pick: `random.choices(opts, weights)[0]` with target
`t = u * total_weight` (bisect over the cumulative weights; the final
element is the fallback once the target passes the total). -/
def pickCum : List ℚ → List ℚ → ℚ → ℚ
  | [], _, _ => 0
  | [x], _, _ => x
  | x :: y :: rest, w :: ws, t => if t < w then x else pickCum (y :: rest) ws (t - w)
  | x :: _ :: _, [], _ => x

/-- `random.choices(opts, weights=w, k=1)[0]` from one uniform draw
(`weights=None` means equal weights). -/
def choosePick (opts : List ℚ) (ws : Option (List ℚ)) (u : ℚ) : ℚ :=
  let w := match ws with
    | some w => w
    | none => opts.map (fun _ => (1 : ℚ))
  pickCum opts w (u * w.foldl (· + ·) 0)

/-- Amount specification (`spec["dist"]` and its parameters).
`other` is the fall-through branch `float(spec.get("value", 0.0))` for an
unrecognized distribution kind. -/
inductive AmountSpec where
  | fixed (value : ℚ)
  | uniform (low high : ℚ)
  | normal (mean sd min : ℚ)
  | lognormal (mean sigma min : ℚ) (max : Option ℚ)
  | percentOfPay (pct : ℚ)
  | choice (options : List ℚ) (weights : Option (List ℚ))
  | other (value : ℚ)
deriving DecidableEq

/-- `scn["amount"].get("value", default)`: only the dict-shaped specs that
carry a literal `value` key supply one. -/
def specValue : AmountSpec → ℚ → ℚ
  | .fixed v, _ => v
  | .other v, _ => v
  | _, d => d

/-- `draw_amount`: a non-negative magnitude from the specification. The
normal and lognormal samples are oracle draws from the `mag` stream, then
floored/clipped exactly as `lognormal_amount` and the normal branch do. -/
def draw_amount (src : RngSrc) (spec : AmountSpec) (lastPay : ℚ) (rng : Rng) : ℚ × Rng :=
  match spec with
  | .fixed v => (v, rng)
  | .uniform low high =>
    let (u, rng1) := rng.nextU src
    (low + u * (high - low), rng1)
  | .normal _ _ mn =>
    let (g, rng1) := rng.nextM src
    (max g mn, rng1)
  | .lognormal _ _ mn mx =>
    let (s, rng1) := rng.nextM src
    let v := max s mn
    (match mx with
     | some m => min v m
     | none => v, rng1)
  | .percentOfPay pct => (|lastPay| * pct, rng)
  | .choice opts ws =>
    let (u, rng1) := rng.nextU src
    (choosePick opts ws u, rng1)
  | .other v => (v, rng)

/-- Schedule specification (`every_n_days{n, offset}` or `pay_cycle`). -/
inductive Schedule where
  | everyNDays (n offset : Int)
  | payCycle
deriving DecidableEq

/-- Trigger payload as built by the `schedule(...)` helper inside
`build_options`: spawn target, delay, Bernoulli probability, optional
override amount and extra description. -/
structure OptionTrigger where
  spawn : String
  afterDays : Int
  prob : ℚ
  overrideAmount : Option ℚ
  extraDesc : String
deriving DecidableEq

/-- Scenario definition (catalog entry).  The scenario-level `triggers`
field is stored by `scenario_dict` but never read by the engine. -/
structure Scenario where
  id : String
  name : String
  stype : String
  tags : List String
  description : String
  amount : AmountSpec
  baseDailyProb : ℚ
  deterministic : Bool
  schedule : Option Schedule
  cooldownDays : Int
  triggers : List OptionTrigger
deriving DecidableEq

structure PayCycle where
  ctype : String
  startDay : Int
  amount : ℚ
deriving DecidableEq

structure UserProfile where
  name : String
  segmentKey : String
  mood : String
  payCycle : PayCycle
  predispositions : List (String × ℚ)
  baseBalance : ℚ
deriving DecidableEq

structure SavingPlan where
  planId : Nat
  name : String
  total : ℚ
  startDay : Int
  dueDay : Int
  frequency : String
  contributed : ℚ
deriving DecidableEq

/-- `SavingPlan.remaining`. -/
def SavingPlan.remaining (p : SavingPlan) : ℚ := max (p.total - p.contributed) 0

/-- Committed event record.  The engine's event dicts gain
`chosen_option`/`proposed_amount` at commit time; here the record carries
all fields from the start (placeholders until commit). -/
structure CommittedEvent where
  evId : Nat
  day : Int
  scenarioId : String
  name : String
  etype : String
  tags : List String
  deterministic : Bool
  proposedAmount : ℚ
  amount : ℚ
  chosenOption : String
  description : String
deriving DecidableEq

/-- Delayed-spawn payload as enqueued by `schedule_trigger`. -/
structure SpawnPayload where
  spawn : String
  overrideAmount : Option ℚ
  extraDesc : String
  sourceEventId : Nat
deriving DecidableEq

structure OfferOption where
  code : String
  label : String
  amountNow : ℚ
  triggers : List OptionTrigger
  pledgeTotal : Option ℚ
deriving DecidableEq

def dummyOption : OfferOption :=
  { code := "", label := "", amountNow := 0, triggers := [], pledgeTotal := none }

structure Offer where
  offerId : Nat
  day : Int
  scenarioId : String
  name : String
  otype : String
  tags : List String
  deterministic : Bool
  proposedAmount : ℚ
  options : List OfferOption
  forcedEvent : Option CommittedEvent
deriving DecidableEq

/-- Engine state (the catalog is immutable and passed separately). -/
structure EngineState where
  history : List CommittedEvent
  pendingOffers : List (Int × List Offer)
  activeSavingPlans : List SavingPlan
  delayedEvents : List (Int × List SpawnPayload)
  day : Int
  balance : ℚ
  lastPayAmount : ℚ
  uidCounter : Nat
deriving DecidableEq

/-- Day-keyed association-list lookup (Python `dict` access / `get`). -/
def lookupAt {α : Type} (m : List (Int × List α)) (day : Int) : List α :=
  ((m.find? (fun e => e.1 == day)).map (fun e => e.2)).getD []

/-- `dict.pop(day, [])` (the remaining map). -/
def removeAt {α : Type} (m : List (Int × List α)) (day : Int) : List (Int × List α) :=
  m.filter (fun e => !(e.1 == day))

/-- `dict[day] = xs`. -/
def setAt {α : Type} (m : List (Int × List α)) (day : Int) (xs : List α) : List (Int × List α) :=
  if (m.find? (fun e => e.1 == day)).isSome then
    m.map (fun e => if e.1 == day then (e.1, xs) else e)
  else m ++ [(day, xs)]

/-- `dict.setdefault(day, []).append(x)`. -/
def appendAt {α : Type} (m : List (Int × List α)) (day : Int) (x : α) : List (Int × List α) :=
  if (m.find? (fun e => e.1 == day)).isSome then
    m.map (fun e => if e.1 == day then (e.1, e.2 ++ [x]) else e)
  else m ++ [(day, [x])]

/-- `self.by_id[sid]` (first catalog entry with the given id). -/
def findById (cat : List Scenario) (sid : String) : Option Scenario :=
  cat.find? (fun c => c.id == sid)

/-- `SEGMENTS[key]["tag_weights"]` tables. -/
def SEGMENTS : List (String × List (String × ℚ)) :=
  [ ("student_dependent", [("tuition", 1.6), ("education", 1.4), ("subscriptions", 1.2), ("groceries", 0.9), ("rent", 1.0), ("leisure", 1.1), ("donation", 0.7), ("gambling", 0.8), ("investment", 0.6), ("salary", 0.6), ("gig_income", 1.4), ("transport", 1.0), ("car", 0.7), ("public_transit", 1.3), ("electronics", 1.2)]),
    ("student_independent", [("tuition", 1.6), ("education", 1.3), ("subscriptions", 1.0), ("groceries", 1.1), ("rent", 1.1), ("leisure", 0.9), ("donation", 0.6), ("gambling", 0.7), ("investment", 0.7), ("salary", 0.9), ("gig_income", 1.3), ("transport", 1.1), ("car", 0.9), ("public_transit", 1.2), ("fees", 1.1)]),
    ("unemployed_benefits", [("salary", 0.1), ("benefits_income", 2.0), ("gig_income", 1.1), ("leisure", 0.8), ("groceries", 1.0), ("emergency", 1.2), ("fees", 1.2), ("donation", 0.5), ("investment", 0.4), ("subscriptions", 0.9)]),
    ("unemployed_no_benefits", [("salary", 0.1), ("benefits_income", 0.5), ("gig_income", 1.3), ("leisure", 0.5), ("groceries", 1.0), ("emergency", 1.3), ("fees", 1.3), ("donation", 0.3), ("investment", 0.3), ("subscriptions", 0.8), ("debt", 1.3)]),
    ("early_career", [("salary", 1.2), ("gig_income", 1.0), ("leisure", 1.2), ("groceries", 1.0), ("subscriptions", 1.3), ("donation", 0.9), ("gambling", 0.9), ("investment", 0.9), ("rent", 1.2), ("transport", 1.1), ("electronics", 1.1)]),
    ("mid_career", [("salary", 1.2), ("investment", 1.2), ("childcare", 1.4), ("mortgage", 1.3), ("insurance", 1.2), ("subscriptions", 1.1), ("leisure", 1.0), ("donation", 1.1), ("groceries", 1.2), ("car", 1.2)]),
    ("senior_professional", [("salary", 1.3), ("investment", 1.5), ("leisure", 1.3), ("luxury", 1.3), ("donation", 1.2), ("subscriptions", 1.2), ("travel", 1.3), ("electronics", 1.2), ("fees", 1.0)]),
    ("executive_high_income", [("salary", 1.4), ("investment", 1.6), ("leisure", 1.4), ("luxury", 1.6), ("donation", 1.5), ("travel", 1.5), ("subscriptions", 1.2), ("fees", 1.0), ("mortgage", 1.2)]),
    ("gig_worker", [("salary", 0.6), ("gig_income", 2.0), ("freelance_income", 1.8), ("transport", 1.4), ("car", 1.2), ("public_transit", 1.1), ("subscriptions", 1.0), ("investment", 0.8), ("fees", 1.1)]),
    ("part_time_worker", [("salary", 0.8), ("leisure", 0.9), ("subscriptions", 1.0), ("donation", 0.8), ("groceries", 1.0), ("transport", 1.0), ("fees", 1.0), ("investment", 0.8)]),
    ("parent_young_children", [("childcare", 1.8), ("groceries", 1.3), ("healthcare", 1.2), ("leisure", 0.9), ("subscriptions", 1.1), ("donation", 1.0), ("education", 1.2), ("transport", 1.2), ("gift", 1.3)]),
    ("single_no_kids", [("leisure", 1.3), ("social", 1.3), ("rent", 1.2), ("mortgage", 0.7), ("travel", 1.2), ("subscriptions", 1.2), ("donation", 1.0), ("investment", 1.0)]),
    ("retired_modest", [("salary", 0.2), ("pension_income", 1.6), ("investment", 1.1), ("healthcare", 1.5), ("leisure", 0.9), ("donation", 0.9), ("subscriptions", 1.0), ("fees", 1.1), ("utilities", 1.1)]),
    ("retired_well_off", [("salary", 0.2), ("pension_income", 1.4), ("investment", 1.4), ("healthcare", 1.3), ("leisure", 1.2), ("donation", 1.2), ("travel", 1.4), ("luxury", 1.2)]),
    ("entrepreneur", [("salary", 0.6), ("owner_draw", 1.6), ("freelance_income", 1.4), ("investment", 1.2), ("subscriptions", 1.2), ("travel", 1.2), ("fees", 1.1), ("electronics", 1.2)]),
    ("public_sector", [("salary", 1.2), ("donation", 1.1), ("education", 1.2), ("subscriptions", 1.0), ("leisure", 1.0), ("fees", 1.0), ("insurance", 1.1)]),
    ("healthcare_worker", [("salary", 1.2), ("leisure", 1.0), ("transport", 1.1), ("dining", 1.2), ("groceries", 1.1), ("subscriptions", 1.1), ("fees", 1.0), ("healthcare", 1.1)]),
    ("remote_worker", [("internet", 1.2), ("utilities", 1.1), ("transport", 0.8), ("electronics", 1.2), ("subscriptions", 1.1)]),
    ("urban_high_cost", [("rent", 1.5), ("mortgage", 0.8), ("public_transit", 1.5), ("car", 0.6), ("dining", 1.2)]),
    ("rural", [("car", 1.5), ("fuel", 1.3), ("public_transit", 0.6), ("rent", 0.9), ("utilities", 1.1)]) ]

/-- `MOODS` tag-weight tables. -/
def MOODS : List (String × List (String × ℚ)) :=
  [ ("optimistic", [("investment", 1.2), ("leisure", 1.1), ("donation", 1.1), ("savings", 1.05)]),
    ("pessimistic", [("investment", 0.8), ("leisure", 0.9), ("savings", 1.1)]),
    ("stressed", [("convenience", 1.2), ("dining", 1.15), ("leisure", 0.95), ("savings", 0.95)]),
    ("bored", [("leisure", 1.3), ("entertainment", 1.2), ("gambling", 1.2), ("shopping", 1.15)]),
    ("generous", [("donation", 1.5), ("gift", 1.2)]),
    ("frugal", [("leisure", 0.8), ("shopping", 0.85), ("savings", 1.2)]),
    ("reckless", [("gambling", 1.6), ("luxury", 1.2), ("investment", 1.1)]),
    ("disciplined", [("savings", 1.4), ("debt", 1.1), ("donation", 0.9)]),
    ("social", [("social", 1.4), ("leisure", 1.1), ("dining", 1.2), ("travel", 1.1)]),
    ("lonely", [("leisure", 0.9), ("shopping", 1.1), ("subscriptions", 1.05)]) ]

def DISCRETIONARY_TAGS : List String :=
  ["leisure", "entertainment", "shopping", "luxury", "travel", "donation",
   "gambling", "electronics", "clothes", "sports", "gift"]

/-- Outer table lookup; a missing mood key means the empty table
(`MOODS.get(mood, {})`).  A missing segment key raises `KeyError` in the
source; modelled as the empty table (all claims use valid keys). -/
def lookupTable (tbl : List (String × List (String × ℚ))) (key : String) : List (String × ℚ) :=
  ((tbl.find? (fun e => e.1 == key)).map (fun e => e.2)).getD []

/-- `mapping.get(t, 1.0)` over a tag-weight table. -/
def lookupW (m : List (String × ℚ)) (t : String) : Option ℚ :=
  (m.find? (fun e => e.1 == t)).map (fun e => e.2)

/-- `geometric_mean(values)`: 1.0 on the empty list, otherwise the real
n-th root of the product of the values floored at `1e-9`. -/
noncomputable def geometric_mean (values : List ℝ) : ℝ :=
  if values = [] then 1
  else (values.foldl (fun p v => p * max v (1 / 10 ^ 9)) 1) ^ ((1 : ℝ) / values.length)

/-- `tag_factor`: geometric mean of the scenario tags' weights, an absent
tag contributing weight 1.0. -/
noncomputable def tag_factor (tags : List String) (m : List (String × ℚ)) : ℝ :=
  geometric_mean (tags.map (fun t => (((lookupW m t).getD 1 : ℚ) : ℝ)))

/-- Predisposition product: every user predisposition whose key is a
scenario tag or whose lowered key is a substring of the normalized
scenario name multiplies in. -/
def predFactor (user : UserProfile) (scn : Scenario) : ℚ :=
  user.predispositions.foldl
    (fun acc kv =>
      if kv.1 ∈ scn.tags ∨ strContains (normName scn.name) kv.1.toLower = true then acc * kv.2
      else acc) 1

def discretionaryHit (tags : List String) : Bool :=
  tags.any (fun t => DISCRETIONARY_TAGS.contains t)

/-- The two sequential balance checks of `compute_probability` (the
negative-balance check overwrites the low-balance one). -/
def balanceFactor (balance : ℚ) (tags : List String) : ℚ :=
  let b1 := if balance < 200 ∧ discretionaryHit tags = true then (0.5 : ℚ) else 1
  if balance < 0 ∧ discretionaryHit tags = true then (0.2 : ℚ) else b1

/-- `occurred_within`'s backward scan over the reversed history: stop with
`True` at a same-named in-window entry, stop with `False` once an entry
falls outside the window. -/
def scanBack (n : String) (d today : Int) : List CommittedEvent → Bool
  | [] => false
  | ev :: rest =>
    if ev.name = n ∧ today - ev.day ≤ d then true
    else if d < today - ev.day then false
    else scanBack n d today rest

/-- `occurred_within(scn_name, days, today)`. -/
def occurred_within (history : List CommittedEvent) (scnName : String) (days today : Int) : Bool :=
  if days ≤ 0 then false else scanBack scnName days today history.reverse

/-- Factor breakdown returned by the probability composer. -/
structure ProbDetails where
  base : ℝ
  segment : ℝ
  mood : ℝ
  predisposition : ℝ
  balance : ℝ
  cooldown : ℝ

/-- `compute_probability`: deterministic scenarios report 0 with a unit
breakdown; otherwise the six factors multiply and clamp to `[0, 0.95]`. -/
noncomputable def compute_probability (st : EngineState) (scn : Scenario) (user : UserProfile)
    (today : Int) : ℝ × ProbDetails :=
  if scn.deterministic then (0, ⟨0, 1, 1, 1, 1, 1⟩)
  else
    let base : ℝ := ((scn.baseDailyProb : ℚ) : ℝ)
    let segment := tag_factor scn.tags (lookupTable SEGMENTS user.segmentKey)
    let mood := tag_factor scn.tags (lookupTable MOODS user.mood)
    let pred : ℝ := ((predFactor user scn : ℚ) : ℝ)
    let bal : ℝ := ((balanceFactor st.balance scn.tags : ℚ) : ℝ)
    let cool : ℝ :=
      if occurred_within st.history scn.name scn.cooldownDays today = true then 0 else 1
    let p := min (max (base * segment * mood * pred * bal * cool) 0) 0.95
    (p, ⟨base, segment, mood, pred, bal, cool⟩)

/-- `is_scheduled_today`. -/
def is_scheduled_today (scn : Scenario) (user : UserProfile) (day : Int) : Bool :=
  match scn.schedule with
  | none => false
  | some (.everyNDays n offset) => decide ((day - offset) % n = 0) && decide (offset ≤ day)
  | some .payCycle =>
    let c := user.payCycle
    if c.ctype = "weekly" then decide (c.startDay ≤ day) && decide ((day - c.startDay) % 7 = 0)
    else if c.ctype = "biweekly" then
      decide (c.startDay ≤ day) && decide ((day - c.startDay) % 14 = 0)
    else if c.ctype = "semimonthly" then
      decide (day = c.startDay) || decide ((day - c.startDay) % 15 = 0)
    else decide (c.startDay ≤ day) && decide ((day - c.startDay) % 30 = 0)

/-- `draw_amount_signed`: magnitude with sign `+1` for income, `-1`
otherwise. -/
def draw_amount_signed (src : RngSrc) (st : EngineState) (scn : Scenario) (rng : Rng) :
    ℚ × Rng :=
  let d := draw_amount src scn.amount st.lastPayAmount rng
  ((if scn.stype = "income" then d.1 else -d.1), d.2)

/-- `instantiate_event`: draw (or take the override) and mint an event;
the uid counter is bumped. -/
def instantiate_event (src : RngSrc) (scn : Scenario) (day : Int) (st : EngineState)
    (override : Option ℚ) (extraDesc : String) (rng : Rng) :
    CommittedEvent × EngineState × Rng :=
  let drawn : ℚ × Rng :=
    match override with
    | some v => (v, rng)
    | none => draw_amount_signed src st scn rng
  let ev : CommittedEvent :=
    { evId := st.uidCounter, day := day, scenarioId := scn.id, name := scn.name,
      etype := scn.stype, tags := scn.tags, deterministic := scn.deterministic,
      proposedAmount := drawn.1, amount := drawn.1, chosenOption := "",
      description := (scn.description ++ (if extraDesc = "" then "" else " " ++ extraDesc)).trim }
  (ev, { st with uidCounter := st.uidCounter + 1 }, drawn.2)

def mkTrigger (spawn : String) (afterDays : Int) (prob : ℚ) (override : Option ℚ)
    (extraDesc : String) : OptionTrigger :=
  { spawn := spawn, afterDays := afterDays, prob := prob, overrideAmount := override,
    extraDesc := extraDesc }

/-- `build_options`: the per-category option menu.  The bill `skip` option
draws its late-fee magnitude (`random.choice([15,25,35,45])`) at build
time; every `amount_now` is rounded to two decimals at the end. -/
def build_options (src : RngSrc) (scn : Scenario) (amt : ℚ) (rng : Rng) :
    List OfferOption × Rng :=
  let ob : List OfferOption × Rng :=
    if scn.stype = "bill" then
      let uA := rng.nextU src
      let fee := pickCum [15, 25, 35, 45] [1, 1, 1, 1] (uA.1 * 4)
      ([ { code := "pay_now", label := "Pay now", amountNow := amt, triggers := [],
           pledgeTotal := none },
         { code := "pay_partial", label := "Pay 50% now, rest later (+5%)",
           amountNow := amt * 0.5,
           triggers := [mkTrigger "deferred_payment" 3 1 (some (amt * 0.5 * 1.05))
             "Deferred remainder +5%"],
           pledgeTotal := none },
         { code := "skip", label := "Skip (risk late fee)", amountNow := 0,
           triggers := [mkTrigger "late_fee_generic" 5 0.9 (some (-fee)) "Late fee"],
           pledgeTotal := none } ], uA.2)
    else if scn.stype = "expense" then
      ([ { code := "skip", label := "Skip", amountNow := 0, triggers := [], pledgeTotal := none },
         { code := "budget", label := "Budget option (~50%)", amountNow := amt * 0.5,
           triggers := [], pledgeTotal := none },
         { code := "regular", label := "Regular", amountNow := amt, triggers := [],
           pledgeTotal := none },
         { code := "splurge", label := "Splurge (~150%)", amountNow := amt * 1.5,
           triggers := [], pledgeTotal := none } ], rng)
    else if scn.stype = "donation" then
      let base := max |amt| 10
      ([ { code := "skip", label := "Skip", amountNow := 0, triggers := [], pledgeTotal := none },
         { code := "small", label := "Small donation", amountNow := -(min (base * 0.5) 50),
           triggers := [], pledgeTotal := none },
         { code := "regular", label := "Regular donation", amountNow := -base,
           triggers := [], pledgeTotal := none },
         { code := "large", label := "Large donation", amountNow := -(min (base * 2) 200),
           triggers := [], pledgeTotal := none } ], rng)
    else if scn.stype = "income" then
      ([ { code := "accept", label := "Accept now", amountNow := amt, triggers := [],
           pledgeTotal := none },
         { code := "delay_1d", label := "Delay to tomorrow", amountNow := 0,
           triggers := [mkTrigger scn.id 1 1 (some amt) "Delayed income"],
           pledgeTotal := none },
         { code := "decline", label := "Decline", amountNow := 0, triggers := [],
           pledgeTotal := none } ], rng)
    else if scn.stype = "saving_pledge" then
      let total := specValue scn.amount 500
      ([ { code := "start", label := "Start pledge", amountNow := 0, triggers := [],
           pledgeTotal := some total },
         { code := "start_smaller", label := "Start smaller pledge", amountNow := 0,
           triggers := [], pledgeTotal := some (total * 0.8) },
         { code := "start_bigger", label := "Start larger pledge", amountNow := 0,
           triggers := [], pledgeTotal := some (total * 1.2) },
         { code := "decline", label := "Decline pledge", amountNow := 0, triggers := [],
           pledgeTotal := none } ], rng)
    else if scn.stype = "lottery" then
      let ticketCost := -|specValue scn.amount 2|
      ([ { code := "skip", label := "Skip", amountNow := 0, triggers := [], pledgeTotal := none },
         { code := "buy_1", label := "Buy 1 ticket", amountNow := ticketCost,
           triggers := [mkTrigger "lottery_result" 1 1 none ""], pledgeTotal := none },
         { code := "buy_5", label := "Buy 5 tickets", amountNow := ticketCost * 5,
           triggers := [mkTrigger "lottery_result" 1 1 none "",
             mkTrigger "lottery_result" 1 1 none "", mkTrigger "lottery_result" 1 1 none "",
             mkTrigger "lottery_result" 1 1 none "", mkTrigger "lottery_result" 1 1 none ""],
           pledgeTotal := none } ], rng)
    else if 0 ≤ amt then
      ([ { code := "accept", label := "Accept", amountNow := amt, triggers := [],
           pledgeTotal := none },
         { code := "delay", label := "Delay by 1 day", amountNow := 0,
           triggers := [mkTrigger scn.id 1 1 (some amt) "Delayed"], pledgeTotal := none },
         { code := "decline", label := "Decline", amountNow := 0, triggers := [],
           pledgeTotal := none } ], rng)
    else
      ([ { code := "skip", label := "Skip", amountNow := 0, triggers := [], pledgeTotal := none },
         { code := "regular", label := "Proceed", amountNow := amt, triggers := [],
           pledgeTotal := none } ], rng)
  (ob.1.map (fun o => { o with amountNow := round2 o.amountNow }), ob.2)

/-- `schedule_trigger`: Bernoulli trial at schedule time (skip when the
draw exceeds the trigger probability), then enqueue at `today + delay`. -/
def schedule_trigger (src : RngSrc) (today : Int) (trig : OptionTrigger) (srcEvId : Nat)
    (st : EngineState) (rng : Rng) : EngineState × Rng :=
  let (r, rng1) := rng.nextU src
  if trig.prob < r then (st, rng1)
  else
    let payload : SpawnPayload :=
      { spawn := trig.spawn, overrideAmount := trig.overrideAmount,
        extraDesc := trig.extraDesc, sourceEventId := srcEvId }
    ({ st with delayedEvents := appendAt st.delayedEvents (today + trig.afterDays) payload },
     rng1)

def triggersFold (src : RngSrc) (today : Int) (srcEvId : Nat) :
    List OptionTrigger → EngineState → Rng → EngineState × Rng
  | [], st, rng => (st, rng)
  | t :: ts, st, rng =>
    let (st1, rng1) := schedule_trigger src today t srcEvId st rng
    triggersFold src today srcEvId ts st1 rng1

/-- The three-tier lottery roll of `realize_delayed` (tier from the first
draw, win magnitude from a second draw). -/
def lotteryRoll (src : RngSrc) (rng : Rng) : ℚ × String × Rng :=
  let ru := rng.nextU src
  if ru.1 < 0.921 then ((0 : ℚ), "Lottery result: no win.", ru.2)
  else if ru.1 < 0.921 + 0.079 then
    let wu := ru.2.nextU src
    (5 + wu.1 * (50 - 5), "Lottery result: small win.", wu.2)
  else
    let wu := ru.2.nextU src
    (1000 + wu.1 * (10000 - 1000), "Lottery result: big win!", wu.2)

def realizeOne (src : RngSrc) (cat : List Scenario) (today : Int) (p : SpawnPayload)
    (st : EngineState) (rng : Rng) : Option CommittedEvent × EngineState × Rng :=
  if p.spawn = "lottery_result" then
    let roll := lotteryRoll src rng
    match findById cat "lottery_result" with
    | some scn =>
      let ir := instantiate_event src scn today st (some roll.1) roll.2.1 roll.2.2
      (some ir.1, ir.2.1, ir.2.2)
    | none => (none, st, roll.2.2)
  else
    match findById cat p.spawn with
    | some scn =>
      let ir := instantiate_event src scn today st p.overrideAmount p.extraDesc rng
      (some ir.1, ir.2.1, ir.2.2)
    | none => (none, st, rng)

def realizeList (src : RngSrc) (cat : List Scenario) (today : Int) :
    List SpawnPayload → EngineState → Rng → List CommittedEvent × EngineState × Rng
  | [], st, rng => ([], st, rng)
  | p :: ps, st, rng =>
    let r1 := realizeOne src cat today p st rng
    let rest := realizeList src cat today ps r1.2.1 r1.2.2
    match r1.1 with
    | none => rest
    | some ev => (ev :: rest.1, rest.2.1, rest.2.2)

/-- `realize_delayed`: pop today's queued payloads and instantiate each. -/
def realize_delayed (src : RngSrc) (cat : List Scenario) (today : Int) (st : EngineState)
    (rng : Rng) : List CommittedEvent × EngineState × Rng :=
  let ps := lookupAt st.delayedEvents today
  realizeList src cat today ps
    { st with delayedEvents := removeAt st.delayedEvents today } rng

/-- Is the plan due for a contribution today (`daily`, or start day plus a
multiple of 7)? -/
def planDueToday (plan : SavingPlan) (today : Int) : Bool :=
  plan.frequency == "daily" ||
    (decide (0 ≤ today - plan.startDay) && decide ((today - plan.startDay) % 7 = 0))

/-- The `continue` guards of `contributions_today` combined with the due
check: a contribution happens only when some balance remains, the due day
has not passed, and the plan is due today. -/
def contribEmits (plan : SavingPlan) (today : Int) : Bool :=
  !(decide (plan.remaining ≤ 0)) && !(decide (plan.dueDay < today)) && planDueToday plan today

/-- Per-occurrence contribution: `remaining / increments` floored at 5 and
capped at the remaining balance. -/
def contribAmt (plan : SavingPlan) (today : Int) : ℚ :=
  let remainingDays : Int := max (plan.dueDay - today) 1
  let increments : Int := if plan.frequency == "daily" then 1 else max 1 (remainingDays / 7)
  min (max (plan.remaining / (increments : ℚ)) 5) plan.remaining

/-- The in-place `plan.contributed += contrib` of `contributions_today`. -/
def contribUpdate (today : Int) (plan : SavingPlan) : SavingPlan :=
  if contribEmits plan today then
    { plan with contributed := plan.contributed + contribAmt plan today }
  else plan

/-- `contributions_today`: walk the active plans, emit a forced event and
advance `contributed` for each due plan (the reserved `saving_contribution`
scenario is guaranteed present by `__init__`'s injection). -/
def contribStep (src : RngSrc) (cat : List Scenario) (today : Int) :
    List SavingPlan → EngineState → Rng →
    List CommittedEvent × List SavingPlan × EngineState × Rng
  | [], st, rng => ([], [], st, rng)
  | plan :: ps, st, rng =>
    if contribEmits plan today then
      match findById cat "saving_contribution" with
      | some scn =>
        let c := contribAmt plan today
        let ir := instantiate_event src scn today st (some (-c))
          ("Auto-contribution to " ++ plan.name) rng
        let rest := contribStep src cat today ps ir.2.1 ir.2.2
        (ir.1 :: rest.1, { plan with contributed := plan.contributed + c } :: rest.2.1,
         rest.2.2.1, rest.2.2.2)
      | none =>
        let rest := contribStep src cat today ps st rng
        (rest.1, plan :: rest.2.1, rest.2.2.1, rest.2.2.2)
    else
      let rest := contribStep src cat today ps st rng
      (rest.1, plan :: rest.2.1, rest.2.2.1, rest.2.2.2)

/-- The forced single-option offer wrapped around a realized delayed event
or a plan auto-contribution. -/
def forcedOfferOf (ev : CommittedEvent) (day : Int) (oid : Nat) (label : String) : Offer :=
  { offerId := oid, day := day, scenarioId := ev.scenarioId, name := ev.name,
    otype := ev.etype, tags := ev.tags, deterministic := true,
    proposedAmount := ev.amount,
    options := [{ code := "forced", label := label, amountNow := ev.amount,
                  triggers := [], pledgeTotal := none }],
    forcedEvent := some ev }

def assignForced (day : Int) (label : String) :
    List CommittedEvent → EngineState → List Offer × EngineState
  | [], st => ([], st)
  | ev :: evs, st =>
    let offer := forcedOfferOf ev day st.uidCounter label
    let rest := assignForced day label evs { st with uidCounter := st.uidCounter + 1 }
    (offer :: rest.1, rest.2)

/-- The deterministic-schedule section of `propose_day`: each deterministic
scenario due today is instantiated (the Paycheck amount comes from the pay
cycle and refreshes the last-pay cache first) and gets its option menu. -/
def detOffers (src : RngSrc) (user : UserProfile) (day : Int) :
    List Scenario → EngineState → Rng → List Offer × EngineState × Rng
  | [], st, rng => ([], st, rng)
  | scn :: rest, st, rng =>
    if scn.deterministic && is_scheduled_today scn user day then
      let ir :=
        if scn.name = "Paycheck" then
          instantiate_event src scn day { st with lastPayAmount := user.payCycle.amount }
            (some user.payCycle.amount) "" rng
        else instantiate_event src scn day st none "" rng
      let bo := build_options src scn ir.1.amount ir.2.2
      let offer : Offer :=
        { offerId := ir.2.1.uidCounter, day := day, scenarioId := scn.id, name := scn.name,
          otype := scn.stype, tags := scn.tags, deterministic := true,
          proposedAmount := ir.1.amount, options := bo.1, forcedEvent := none }
      let more :=
        detOffers src user day rest { ir.2.1 with uidCounter := ir.2.1.uidCounter + 1 } bo.2
      (offer :: more.1, more.2.1, more.2.2)
    else detOffers src user day rest st rng

/-- The probabilistic candidate pool: every non-deterministic scenario
whose composed probability is positive. -/
noncomputable def probPool (cat : List Scenario) (user : UserProfile) (today : Int)
    (st : EngineState) : List (Scenario × ℝ) :=
  cat.filterMap (fun scn =>
    if scn.deterministic then none
    else
      let p := (compute_probability st scn user today).1
      if 0 < p then some (scn, p) else none)

/-- Stable descending sort by probability (`prob_pool.sort(reverse=True)`). -/
noncomputable def sortPool (pool : List (Scenario × ℝ)) : List (Scenario × ℝ) :=
  pool.mergeSort (fun a b => decide (b.2 ≤ a.2))

/-- The capped Bernoulli acceptance loop over the sorted pool. -/
noncomputable def probAccept (src : RngSrc) (user : UserProfile) (day : Int) (cap : Nat) :
    List (Scenario × ℝ) → Nat → EngineState → Rng → List Offer × EngineState × Rng
  | [], _, st, rng => ([], st, rng)
  | (scn, p) :: rest, chosen, st, rng =>
    if cap ≤ chosen then ([], st, rng)
    else
      let ru := rng.nextU src
      if ((ru.1 : ℚ) : ℝ) < p then
        let ir := instantiate_event src scn day st none "" ru.2
        let bo := build_options src scn ir.1.amount ir.2.2
        let offer : Offer :=
          { offerId := ir.2.1.uidCounter, day := day, scenarioId := scn.id, name := scn.name,
            otype := scn.stype, tags := scn.tags, deterministic := false,
            proposedAmount := ir.1.amount, options := bo.1, forcedEvent := none }
        let more := probAccept src user day cap rest (chosen + 1)
          { ir.2.1 with uidCounter := ir.2.1.uidCounter + 1 } bo.2
        (offer :: more.1, more.2.1, more.2.2)
      else probAccept src user day cap rest chosen st ru.2

/-- `propose_day`: realize delayed spawns as forced offers, add today's
deterministic schedules, run the capped probabilistic draws, append the
savings-plan auto-contributions, and store everything as the day's
pending offers. -/
noncomputable def propose_day (src : RngSrc) (cat : List Scenario) (user : UserProfile)
    (day : Int) (maxProbabilistic : Nat) (st : EngineState) (rng : Rng) :
    List Offer × EngineState × Rng :=
  let rd := realize_delayed src cat day st rng
  let fo := assignForced day "Forced" rd.1 rd.2.1
  let dd := detOffers src user day cat fo.2 rd.2.2
  let pool := sortPool (probPool cat user day dd.2.1)
  let pa := probAccept src user day maxProbabilistic pool 0 dd.2.1 dd.2.2
  let cs := contribStep src cat day pa.2.1.activeSavingPlans pa.2.1 pa.2.2
  let co := assignForced day "Scheduled contribution" cs.1 cs.2.2.1
  let offers := fo.1 ++ dd.1 ++ pa.1 ++ co.1
  (offers,
   { co.2 with
     activeSavingPlans := cs.2.1
     pendingOffers := setAt co.2.pendingOffers day offers }, cs.2.2.2)

/-- `add_saving_plan` (commit effects always use `due_in_days = 90`,
frequency `weekly`). -/
def addPlan (name : String) (total : ℚ) (startDay : Int) (dueInDays : Int) (freq : String)
    (st : EngineState) : EngineState :=
  let plan : SavingPlan :=
    { planId := st.uidCounter, name := name, total := total, startDay := startDay,
      dueDay := startDay + dueInDays, frequency := freq, contributed := 0 }
  { st with
    activeSavingPlans := st.activeSavingPlans ++ [plan]
    uidCounter := st.uidCounter + 1 }

/-- Commit one non-forced offer: settle the picked option's amount, append
the event, refresh the Paycheck cache, fire triggers and effects. -/
def commitPick (src : RngSrc) (day : Int) (offer : Offer) (picked : OfferOption)
    (st : EngineState) (rng : Rng) : CommittedEvent × EngineState × Rng :=
  let ev : CommittedEvent :=
    { evId := st.uidCounter, day := day, scenarioId := offer.scenarioId, name := offer.name,
      etype := offer.otype, tags := offer.tags, deterministic := offer.deterministic,
      proposedAmount := offer.proposedAmount, amount := picked.amountNow,
      chosenOption := picked.code, description := "" }
  let st1 :=
    { st with
      uidCounter := st.uidCounter + 1
      balance := st.balance + ev.amount
      lastPayAmount := if offer.name = "Paycheck" then ev.amount else st.lastPayAmount
      history := st.history ++ [ev] }
  let tf := triggersFold src day ev.evId picked.triggers st1 rng
  let st3 :=
    match picked.pledgeTotal with
    | some total => addPlan offer.name total day 90 "weekly" tf.1
    | none => tf.1
  (ev, st3, tf.2)

/-- Resolve and commit one offer (`choices.get(...)`, forced-event path,
first-option default). -/
def commitOne (src : RngSrc) (day : Int) (choices : Nat → Option String) (offer : Offer)
    (st : EngineState) (rng : Rng) : CommittedEvent × EngineState × Rng :=
  let opt0 := offer.options.headD dummyOption
  let optCode := (choices offer.offerId).getD opt0.code
  match offer.forcedEvent with
  | some fe =>
    if optCode = "forced" then
      let ev := { fe with chosenOption := "forced", proposedAmount := offer.proposedAmount }
      (ev, { st with balance := st.balance + ev.amount, history := st.history ++ [ev] }, rng)
    else
      commitPick src day offer
        (((offer.options.find? (fun o => o.code == optCode)).getD opt0)) st rng
  | none =>
    commitPick src day offer
      (((offer.options.find? (fun o => o.code == optCode)).getD opt0)) st rng

def commitList (src : RngSrc) (day : Int) (choices : Nat → Option String) :
    List Offer → EngineState → Rng → List CommittedEvent × EngineState × Rng
  | [], st, rng => ([], st, rng)
  | o :: os, st, rng =>
    let (ev, st1, rng1) := commitOne src day choices o st rng
    let (evs, st2, rng2) := commitList src day choices os st1 rng1
    (ev :: evs, st2, rng2)

/-- `commit_day`: pop the day's pending offers and resolve each one. -/
def commit_day (src : RngSrc) (day : Int) (choices : Nat → Option String) (st : EngineState)
    (rng : Rng) : List CommittedEvent × EngineState × Rng :=
  let offers := lookupAt st.pendingOffers day
  commitList src day choices offers
    { st with pendingOffers := removeAt st.pendingOffers day } rng

/-- One caller step: a day's proposal followed by its commit.  -/
structure StepInput where
  user : UserProfile
  day : Int
  choices : Nat → Option String

noncomputable def engineRun (src : RngSrc) (cat : List Scenario) :
    List StepInput → EngineState → Rng → EngineState
  | [], st, _ => st
  | i :: is, st, rng =>
    let (_, st1, rng1) := propose_day src cat i.user i.day 6 st rng
    let (_, st2, rng2) := commit_day src i.day i.choices st1 rng1
    engineRun src cat is st2 rng2

/-- Fresh engine state as `run_with_policy` resets it. -/
def initState (bal : ℚ) (lastPay : ℚ) : EngineState :=
  { history := [], pendingOffers := [], activeSavingPlans := [], delayedEvents := [],
    day := 0, balance := bal, lastPayAmount := lastPay, uidCounter := 0 }

/-- Reserved catalog entries injected by `build_default_catalog` /
`__init__` (sign-relevant fields from the source's `scenario_dict` calls). -/
def lotteryResultScn : Scenario :=
  { id := "lottery_result", name := "Lottery Result", stype := "income",
    tags := ["gambling", "windfall"],
    description := "Lottery outcome (usually $0; small chance of win).",
    amount := .choice [0] none, baseDailyProb := 0, deterministic := false,
    schedule := none, cooldownDays := 0, triggers := [] }

def savingContributionScn : Scenario :=
  { id := "saving_contribution", name := "Saving Plan Contribution", stype := "expense",
    tags := ["savings"], description := "Contribution toward an active saving pledge.",
    amount := .choice [0] none, baseDailyProb := 0, deterministic := false,
    schedule := none, cooldownDays := 0, triggers := [] }

def deferredPaymentScn : Scenario :=
  { id := "deferred_payment", name := "Deferred Payment Due", stype := "bill",
    tags := ["fees", "debt"], description := "Deferred payment scheduled by player choice.",
    amount := .fixed 0, baseDailyProb := 0, deterministic := false,
    schedule := none, cooldownDays := 0, triggers := [] }

def lateFeeGenericScn : Scenario :=
  { id := "late_fee_generic", name := "Late Fee", stype := "expense", tags := ["fees"],
    description := "Generic late fee incurred by skipping or deferring obligations.",
    amount := .choice [15, 25, 35, 45] none, baseDailyProb := 0, deterministic := false,
    schedule := none, cooldownDays := 0, triggers := [] }

/-! ### Basic lemmas about the probability composer -/

lemma foldl_mul_max_pos (l : List ℝ) : ∀ a : ℝ, 0 < a →
    0 < l.foldl (fun p v => p * max v (1 / 10 ^ 9)) a := by
  induction l with
  | nil => intro a ha; simpa using ha
  | cons v rest ih =>
    intro a ha
    simp only [List.foldl_cons]
    exact ih _ (mul_pos ha (lt_of_lt_of_le (by norm_num) (le_max_right v (1 / 10 ^ 9))))

lemma geometric_mean_pos (l : List ℝ) : 0 < geometric_mean l := by
  unfold geometric_mean
  split
  · norm_num
  · exact Real.rpow_pos_of_pos (foldl_mul_max_pos l 1 (by norm_num)) _

lemma geometric_mean_nil : geometric_mean [] = 1 := by simp [geometric_mean]

lemma tag_factor_pos (tags : List String) (m : List (String × ℚ)) :
    0 < tag_factor tags m := geometric_mean_pos _

lemma foldl_predStep_pos (l : List (String × ℚ)) (f : String × ℚ → Prop) [DecidablePred f]
    (hl : ∀ kv ∈ l, 0 < kv.2) : ∀ a : ℚ, 0 < a →
    0 < l.foldl (fun acc kv => if f kv then acc * kv.2 else acc) a := by
  induction l with
  | nil => intro a ha; simpa using ha
  | cons kv rest ih =>
    intro a ha
    simp only [List.foldl_cons]
    have hrest : ∀ x ∈ rest, 0 < x.2 := fun x hx => hl x (List.mem_cons_of_mem _ hx)
    by_cases h : f kv
    · simp only [if_pos h]
      exact ih hrest _ (mul_pos ha (hl kv (List.mem_cons_self _ _)))
    · simp only [if_neg h]
      exact ih hrest _ ha

lemma predFactor_pos (user : UserProfile) (scn : Scenario)
    (hp : ∀ kv ∈ user.predispositions, 0 < kv.2) : 0 < predFactor user scn := by
  unfold predFactor
  exact foldl_predStep_pos _ _ hp 1 (by norm_num)

lemma balanceFactor_pos (b : ℚ) (tags : List String) : 0 < balanceFactor b tags := by
  unfold balanceFactor
  split <;> split <;> norm_num

lemma balanceFactor_cases (b : ℚ) (tags : List String) :
    balanceFactor b tags =
      (if b < 0 ∧ discretionaryHit tags = true then (0.2 : ℚ)
       else if b < 200 ∧ discretionaryHit tags = true then 0.5 else 1) := by
  unfold balanceFactor
  rfl

/-- The backward scan is exactly the existence of a same-named in-window
entry, provided the scanned (reversed) list is most-recent-first. -/
lemma scanBack_iff (n : String) (d today : Int) (l : List CommittedEvent)
    (hl : l.Pairwise (fun a b => b.day ≤ a.day)) :
    scanBack n d today l = true ↔ ∃ ev ∈ l, ev.name = n ∧ today - ev.day ≤ d := by
  induction l with
  | nil => simp [scanBack]
  | cons ev rest ih =>
    have hrest := (List.pairwise_cons.mp hl).2
    have hle := (List.pairwise_cons.mp hl).1
    by_cases h1 : ev.name = n ∧ today - ev.day ≤ d
    · simp only [scanBack, if_pos h1]
      constructor
      · intro _; exact ⟨ev, List.mem_cons_self _ _, h1⟩
      · intro _; trivial
    · by_cases h2 : d < today - ev.day
      · simp only [scanBack, if_neg h1, if_pos h2]
        constructor
        · intro h; exact absurd h (by simp)
        · rintro ⟨x, hx, hxn, hxd⟩
          rcases List.mem_cons.mp hx with rfl | hx
          · exact absurd hxd (not_le.mpr h2)
          · have : x.day ≤ ev.day := hle x hx
            have : today - ev.day ≤ today - x.day := by omega
            omega
      · simp only [scanBack, if_neg h1, if_neg h2]
        rw [ih hrest]
        constructor
        · rintro ⟨x, hx, hxp⟩; exact ⟨x, List.mem_cons_of_mem _ hx, hxp⟩
        · rintro ⟨x, hx, hxn, hxd⟩
          rcases List.mem_cons.mp hx with rfl | hx
          · exact absurd ⟨hxn, hxd⟩ h1
          · exact ⟨x, hx, hxn, hxd⟩

/-- `occurred_within` over a day-ordered history is membership in the
inclusive cooldown window. -/
lemma occurred_within_iff (hist : List CommittedEvent) (n : String) (d today : Int)
    (hd : 0 < d) (hsorted : hist.Pairwise (fun a b => a.day ≤ b.day)) :
    occurred_within hist n d today = true ↔
      ∃ ev ∈ hist, ev.name = n ∧ today - ev.day ≤ d := by
  unfold occurred_within
  rw [if_neg (not_le.mpr hd)]
  rw [scanBack_iff n d today hist.reverse (by
    rw [List.pairwise_reverse]; exact hsorted)]
  simp

/-! ### C1: composition of the occurrence probability -/

/-- Unfolding equation of the composer on a non-deterministic scenario. -/
lemma compute_probability_spec (st : EngineState) (scn : Scenario)
    (user : UserProfile) (today : Int) (h : scn.deterministic = false) :
    compute_probability st scn user today =
      (min (max (((scn.baseDailyProb : ℚ) : ℝ) *
        tag_factor scn.tags (lookupTable SEGMENTS user.segmentKey) *
        tag_factor scn.tags (lookupTable MOODS user.mood) *
        ((predFactor user scn : ℚ) : ℝ) *
        ((balanceFactor st.balance scn.tags : ℚ) : ℝ) *
        (if occurred_within st.history scn.name scn.cooldownDays today = true then (0 : ℝ)
         else 1)) 0) 0.95,
       ⟨((scn.baseDailyProb : ℚ) : ℝ),
        tag_factor scn.tags (lookupTable SEGMENTS user.segmentKey),
        tag_factor scn.tags (lookupTable MOODS user.mood),
        ((predFactor user scn : ℚ) : ℝ),
        ((balanceFactor st.balance scn.tags : ℚ) : ℝ),
        (if occurred_within st.history scn.name scn.cooldownDays today = true then (0 : ℝ)
         else 1)⟩) := by
  unfold compute_probability
  rw [if_neg (by simp [h])]

/-- C1. For a non-deterministic scenario the composed probability is the
product base × segment × mood × predisposition × balance × cooldown
clamped into [0, 0.95]; the segment/mood factors are geometric means with
absent tags contributing 1 and the empty tag set giving exactly 1; the
balance factor is 0.2 / 0.5 / 1 by the discretionary-tag balance checks;
and the result always lies in [0, 0.95]. -/
theorem compute_probability_composition (st : EngineState) (scn : Scenario)
    (user : UserProfile) (today : Int) (h : scn.deterministic = false) :
    (compute_probability st scn user today).1 =
      min (max (((scn.baseDailyProb : ℚ) : ℝ) *
        tag_factor scn.tags (lookupTable SEGMENTS user.segmentKey) *
        tag_factor scn.tags (lookupTable MOODS user.mood) *
        ((predFactor user scn : ℚ) : ℝ) *
        ((balanceFactor st.balance scn.tags : ℚ) : ℝ) *
        (if occurred_within st.history scn.name scn.cooldownDays today = true then (0 : ℝ)
         else 1)) 0) 0.95 ∧
    0 ≤ (compute_probability st scn user today).1 ∧
    (compute_probability st scn user today).1 ≤ 0.95 ∧
    geometric_mean [] = 1 ∧
    tag_factor scn.tags (lookupTable SEGMENTS user.segmentKey) =
      geometric_mean (scn.tags.map
        (fun t => (((lookupW (lookupTable SEGMENTS user.segmentKey) t).getD 1 : ℚ) : ℝ))) ∧
    balanceFactor st.balance scn.tags =
      (if st.balance < 0 ∧ discretionaryHit scn.tags = true then (0.2 : ℚ)
       else if st.balance < 200 ∧ discretionaryHit scn.tags = true then 0.5 else 1) := by
  have hcp := compute_probability_spec st scn user today h
  refine ⟨by rw [hcp], ?_, ?_, geometric_mean_nil, rfl, balanceFactor_cases _ _⟩
  · rw [hcp]
    exact le_min (le_max_right _ 0) (by norm_num)
  · rw [hcp]
    exact min_le_right _ _

/-- C1 witness: the reserved lottery-result scenario is non-deterministic,
so the composition theorem applies to it at a concrete state. -/
theorem compute_probability_composition_witness :
    lotteryResultScn.deterministic = false ∧
    (0 ≤ (compute_probability (initState 1500 2000) lotteryResultScn
      ⟨"u", "early_career", "bored", ⟨"biweekly", 1, 2000⟩, [], 1500⟩ 3).1 ∧
     (compute_probability (initState 1500 2000) lotteryResultScn
      ⟨"u", "early_career", "bored", ⟨"biweekly", 1, 2000⟩, [], 1500⟩ 3).1 ≤ 0.95) :=
  ⟨rfl,
   (compute_probability_composition (initState 1500 2000) lotteryResultScn
     ⟨"u", "early_career", "bored", ⟨"biweekly", 1, 2000⟩, [], 1500⟩ 3 rfl).2.1,
   (compute_probability_composition (initState 1500 2000) lotteryResultScn
     ⟨"u", "early_career", "bored", ⟨"biweekly", 1, 2000⟩, [], 1500⟩ 3 rfl).2.2.1⟩

/-! ### C3: cooldown gates the probability to exactly zero -/

/-- C3. With a positive cooldown, positive base rate and positive (or no)
predispositions, and a day-ordered history, the composed probability on
day `t` is exactly 0 iff a same-named event lies within the inclusive
cooldown window; once no such event remains, the cooldown factor is 1 and
the probability is the unconstrained composed value. -/
theorem cooldown_zero_iff (st : EngineState) (scn : Scenario) (user : UserProfile)
    (today : Int) (hdet : scn.deterministic = false) (hcd : 0 < scn.cooldownDays)
    (hbase : 0 < scn.baseDailyProb)
    (hpred : ∀ kv ∈ user.predispositions, 0 < kv.2)
    (hsorted : st.history.Pairwise (fun a b => a.day ≤ b.day)) :
    ((compute_probability st scn user today).1 = 0 ↔
      ∃ ev ∈ st.history, ev.name = scn.name ∧ today - ev.day ≤ scn.cooldownDays) ∧
    ((¬ ∃ ev ∈ st.history, ev.name = scn.name ∧ today - ev.day ≤ scn.cooldownDays) →
      (compute_probability st scn user today).2.cooldown = 1 ∧
      (compute_probability st scn user today).1 =
        min (max (((scn.baseDailyProb : ℚ) : ℝ) *
          tag_factor scn.tags (lookupTable SEGMENTS user.segmentKey) *
          tag_factor scn.tags (lookupTable MOODS user.mood) *
          ((predFactor user scn : ℚ) : ℝ) *
          ((balanceFactor st.balance scn.tags : ℚ) : ℝ)) 0) 0.95) := by
  have hocc := occurred_within_iff st.history scn.name scn.cooldownDays today hcd hsorted
  have hcp := compute_probability_spec st scn user today hdet
  have hP : 0 < ((scn.baseDailyProb : ℚ) : ℝ) *
      tag_factor scn.tags (lookupTable SEGMENTS user.segmentKey) *
      tag_factor scn.tags (lookupTable MOODS user.mood) *
      ((predFactor user scn : ℚ) : ℝ) *
      ((balanceFactor st.balance scn.tags : ℚ) : ℝ) :=
    mul_pos (mul_pos (mul_pos (mul_pos (by exact_mod_cast hbase)
      (tag_factor_pos _ _)) (tag_factor_pos _ _))
      (by exact_mod_cast predFactor_pos user scn hpred))
      (by exact_mod_cast balanceFactor_pos st.balance scn.tags)
  by_cases hb : occurred_within st.history scn.name scn.cooldownDays today = true
  · have hex : ∃ ev ∈ st.history, ev.name = scn.name ∧ today - ev.day ≤ scn.cooldownDays :=
      hocc.mp hb
    constructor
    · rw [hcp]
      simp only [if_pos hb]
      constructor
      · intro _; exact hex
      · intro _
        rw [mul_zero]
        norm_num
    · intro hne; exact absurd hex hne
  · have hnex : ¬ ∃ ev ∈ st.history, ev.name = scn.name ∧ today - ev.day ≤ scn.cooldownDays :=
      fun hex => hb (hocc.mpr hex)
    have hpos : 0 < (compute_probability st scn user today).1 := by
      rw [hcp]
      simp only [if_neg hb, mul_one]
      have hmax : max (((scn.baseDailyProb : ℚ) : ℝ) *
          tag_factor scn.tags (lookupTable SEGMENTS user.segmentKey) *
          tag_factor scn.tags (lookupTable MOODS user.mood) *
          ((predFactor user scn : ℚ) : ℝ) *
          ((balanceFactor st.balance scn.tags : ℚ) : ℝ)) 0 =
          ((scn.baseDailyProb : ℚ) : ℝ) *
          tag_factor scn.tags (lookupTable SEGMENTS user.segmentKey) *
          tag_factor scn.tags (lookupTable MOODS user.mood) *
          ((predFactor user scn : ℚ) : ℝ) *
          ((balanceFactor st.balance scn.tags : ℚ) : ℝ) := max_eq_left hP.le
      rw [hmax]
      exact lt_min hP (by norm_num)
    refine ⟨⟨fun h0 => absurd h0 hpos.ne', fun hex => absurd hex hnex⟩, fun _ => ?_⟩
    rw [hcp]
    simp only [if_neg hb, mul_one]
    exact ⟨trivial, trivial⟩

/-- C3 witness: a concrete non-deterministic scenario with a 5-day
cooldown, positive base rate, empty history. -/
theorem cooldown_zero_iff_witness :
    ((compute_probability (initState 1500 2000)
        ⟨"scn_c", "Coffee Shop", "expense", [], "", .fixed 4, 0.22, false, none, 5, []⟩
        ⟨"u", "early_career", "bored", ⟨"biweekly", 1, 2000⟩, [], 1500⟩ 6).1 = 0 ↔
      ∃ ev ∈ (initState 1500 2000).history, ev.name = "Coffee Shop" ∧ (6 : Int) - ev.day ≤ 5) :=
  (cooldown_zero_iff (initState 1500 2000)
    ⟨"scn_c", "Coffee Shop", "expense", [], "", .fixed 4, 0.22, false, none, 5, []⟩
    ⟨"u", "early_career", "bored", ⟨"biweekly", 1, 2000⟩, [], 1500⟩ 6 rfl (by norm_num)
    (by norm_num) (by intro kv hkv; simp [initState] at hkv)
    (by simp [initState])).1

/-! ### Commit-pipeline resolution lemmas (C2, C9) -/

/-- The option `commit_day` settles for an offer under a choice map
(mirrors the `choices.get` / `next(..., options[0])` resolution). -/
def resolvedOption (choices : Nat → Option String) (o : Offer) : OfferOption :=
  let opt0 := o.options.headD dummyOption
  let optCode := (choices o.offerId).getD opt0.code
  (o.options.find? (fun x => x.code == optCode)).getD opt0

/-- The (chosen-option code, settled amount) a commit records for an
offer: the forced path settles the embedded forced event. -/
def resolvedPair (choices : Nat → Option String) (o : Offer) : String × ℚ :=
  let opt0 := o.options.headD dummyOption
  let optCode := (choices o.offerId).getD opt0.code
  match o.forcedEvent with
  | some fe =>
    if optCode = "forced" then ("forced", fe.amount)
    else ((resolvedOption choices o).code, (resolvedOption choices o).amountNow)
  | none => ((resolvedOption choices o).code, (resolvedOption choices o).amountNow)

lemma schedule_trigger_frame (src : RngSrc) (today : Int) (trig : OptionTrigger)
    (sid : Nat) (st : EngineState) (rng : Rng) :
    (schedule_trigger src today trig sid st rng).1.balance = st.balance ∧
    (schedule_trigger src today trig sid st rng).1.history = st.history := by
  refine ⟨?_, ?_⟩ <;> (unfold schedule_trigger; split; split <;> rfl)

lemma triggersFold_frame (src : RngSrc) (today : Int) (sid : Nat) (ts : List OptionTrigger) :
    ∀ (st : EngineState) (rng : Rng),
    (triggersFold src today sid ts st rng).1.balance = st.balance ∧
    (triggersFold src today sid ts st rng).1.history = st.history := by
  induction ts with
  | nil => intro st rng; exact ⟨rfl, rfl⟩
  | cons t rest ih =>
    intro st rng
    simp only [triggersFold]
    have h1 := schedule_trigger_frame src today t sid st rng
    have h2 := ih (schedule_trigger src today t sid st rng).1
      (schedule_trigger src today t sid st rng).2
    exact ⟨h2.1.trans h1.1, h2.2.trans h1.2⟩

lemma addPlan_frame (name : String) (total : ℚ) (s d : Int) (f : String)
    (st : EngineState) :
    (addPlan name total s d f st).balance = st.balance ∧
    (addPlan name total s d f st).history = st.history := ⟨rfl, rfl⟩

/-- The pledge effect of a chosen option (`"saving_pledge" in effects`). -/
lemma applyPledge_frame (name : String) (day : Int) (t : Option ℚ) (st : EngineState) :
    (match t with
     | some total => addPlan name total day 90 "weekly" st
     | none => st).balance = st.balance ∧
    (match t with
     | some total => addPlan name total day 90 "weekly" st
     | none => st).history = st.history := by
  cases t <;> exact ⟨rfl, rfl⟩

lemma commitPick_spec (src : RngSrc) (day : Int) (offer : Offer) (picked : OfferOption)
    (st : EngineState) (rng : Rng) :
    (commitPick src day offer picked st rng).2.1.balance = st.balance + picked.amountNow ∧
    (commitPick src day offer picked st rng).2.1.history =
      st.history ++ [(commitPick src day offer picked st rng).1] ∧
    (commitPick src day offer picked st rng).1.chosenOption = picked.code ∧
    (commitPick src day offer picked st rng).1.amount = picked.amountNow := by
  refine ⟨?_, ?_, rfl, rfl⟩
  · exact ((applyPledge_frame offer.name day picked.pledgeTotal _).1).trans
      ((triggersFold_frame src day st.uidCounter picked.triggers _ rng).1)
  · exact ((applyPledge_frame offer.name day picked.pledgeTotal _).2).trans
      ((triggersFold_frame src day st.uidCounter picked.triggers _ rng).2)

lemma commitOne_spec (src : RngSrc) (day : Int) (choices : Nat → Option String)
    (offer : Offer) (st : EngineState) (rng : Rng) :
    (commitOne src day choices offer st rng).2.1.balance =
      st.balance + (resolvedPair choices offer).2 ∧
    (commitOne src day choices offer st rng).2.1.history =
      st.history ++ [(commitOne src day choices offer st rng).1] ∧
    (commitOne src day choices offer st rng).1.chosenOption =
      (resolvedPair choices offer).1 ∧
    (commitOne src day choices offer st rng).1.amount = (resolvedPair choices offer).2 := by
  unfold commitOne resolvedPair resolvedOption
  cases offer.forcedEvent with
  | none =>
    exact commitPick_spec src day offer
      ((offer.options.find? (fun x =>
        x.code == (choices offer.offerId).getD (offer.options.headD dummyOption).code)).getD
        (offer.options.headD dummyOption)) st rng
  | some fe =>
    by_cases hc : ((choices offer.offerId).getD (offer.options.headD dummyOption).code) =
        "forced"
    · refine ⟨?_, ?_, ?_, ?_⟩ <;> simp only [if_pos hc]
    · have hs := commitPick_spec src day offer
        ((offer.options.find? (fun x =>
          x.code == (choices offer.offerId).getD (offer.options.headD dummyOption).code)).getD
          (offer.options.headD dummyOption)) st rng
      refine ⟨?_, ?_, ?_, ?_⟩ <;> simp only [if_neg hc] <;>
        (first
          | exact hs.1
          | exact hs.2.1
          | exact hs.2.2.1
          | exact hs.2.2.2)

lemma commitList_spec (src : RngSrc) (day : Int) (choices : Nat → Option String)
    (offers : List Offer) : ∀ (st : EngineState) (rng : Rng),
    (commitList src day choices offers st rng).2.1.balance =
      st.balance + (offers.map (fun o => (resolvedPair choices o).2)).sum ∧
    (commitList src day choices offers st rng).2.1.history =
      st.history ++ (commitList src day choices offers st rng).1 ∧
    (commitList src day choices offers st rng).1.length = offers.length ∧
    (commitList src day choices offers st rng).1.map (fun e => (e.chosenOption, e.amount)) =
      offers.map (resolvedPair choices) := by
  induction offers with
  | nil => intro st rng; simp [commitList]
  | cons o os ih =>
    intro st rng
    simp only [commitList, List.map_cons, List.sum_cons, List.length_cons]
    have h1 := commitOne_spec src day choices o st rng
    have h2 := ih (commitOne src day choices o st rng).2.1
      (commitOne src day choices o st rng).2.2
    refine ⟨?_, ?_, ?_, ?_⟩
    · rw [h2.1, h1.1]; ring
    · rw [h2.2.1, h1.2.1]; simp
    · simp [h2.2.2.1]
    · simp only [List.map_cons, h2.2.2.2, h1.2.2.1, h1.2.2.2]

/-- Balance, history and event-count behaviour of `commit_day` over the
day's pending offers. -/
lemma commit_day_spec (src : RngSrc) (day : Int) (choices : Nat → Option String)
    (st : EngineState) (rng : Rng) :
    (commit_day src day choices st rng).2.1.balance =
      st.balance + ((lookupAt st.pendingOffers day).map
        (fun o => (resolvedPair choices o).2)).sum ∧
    (commit_day src day choices st rng).2.1.history =
      st.history ++ (commit_day src day choices st rng).1 ∧
    (commit_day src day choices st rng).1.length = (lookupAt st.pendingOffers day).length ∧
    (commit_day src day choices st rng).1.map (fun e => (e.chosenOption, e.amount)) =
      (lookupAt st.pendingOffers day).map (resolvedPair choices) := by
  unfold commit_day
  exact commitList_spec src day choices (lookupAt st.pendingOffers day) _ rng

/-! ### C2: commit settles exactly the chosen option's amount -/

/-- Fixed random source (all draws 0) used for the concrete fixtures. -/
def src0 : RngSrc := ⟨fun _ => 0, fun _ => 0⟩

def billScn0 : Scenario :=
  { id := "bill1", name := "Rent", stype := "bill", tags := ["rent"], description := "",
    amount := .fixed 100, baseDailyProb := 0, deterministic := true,
    schedule := some (.everyNDays 30 1), cooldownDays := 0, triggers := [] }

def billOffer0 : Offer :=
  { offerId := 1, day := 7, scenarioId := "bill1", name := "Rent", otype := "bill",
    tags := ["rent"], deterministic := true, proposedAmount := -100,
    options := (build_options src0 billScn0 (-100) ⟨0, 0⟩).1, forcedEvent := none }

def stBill : EngineState :=
  { initState 1000 2000 with pendingOffers := [(7, [billOffer0])] }

/-- C2. Committing a day changes the balance by exactly the sum of the
chosen options' settlement amounts and appends exactly one event per
pending offer (recording that option's code and amount); concretely, for
a $100 bill the `pay_partial` option settles $-50 now and its trigger
enqueues a `deferred_payment` spawn of $-52.50 (the remaining half plus
5%) due 3 days later. -/
theorem commit_day_balance_settlement (src : RngSrc) (day : Int)
    (choices : Nat → Option String) (st : EngineState) (rng : Rng) :
    ((commit_day src day choices st rng).2.1.balance =
      st.balance + ((lookupAt st.pendingOffers day).map
        (fun o => (resolvedPair choices o).2)).sum ∧
     (commit_day src day choices st rng).2.1.history =
      st.history ++ (commit_day src day choices st rng).1 ∧
     (commit_day src day choices st rng).1.length =
      (lookupAt st.pendingOffers day).length ∧
     (commit_day src day choices st rng).1.map (fun e => (e.chosenOption, e.amount)) =
      (lookupAt st.pendingOffers day).map (resolvedPair choices)) ∧
    ((build_options src0 billScn0 (-100) ⟨0, 0⟩).1.find? (fun o => o.code == "pay_partial") =
      some { code := "pay_partial", label := "Pay 50% now, rest later (+5%)",
             amountNow := -50,
             triggers := [mkTrigger "deferred_payment" 3 1 (some (-52.5))
               "Deferred remainder +5%"],
             pledgeTotal := none } ∧
     (commit_day src0 7 (fun _ => some "pay_partial") stBill ⟨0, 0⟩).2.1.balance =
      stBill.balance + (-50) ∧
     lookupAt (commit_day src0 7 (fun _ => some "pay_partial") stBill ⟨0, 0⟩).2.1.delayedEvents
        (7 + 3) =
      [{ spawn := "deferred_payment", overrideAmount := some (-52.5),
         extraDesc := "Deferred remainder +5%", sourceEventId := 0 }]) := by
  refine ⟨commit_day_spec src day choices st rng, ?_, ?_, ?_⟩
  · norm_num [build_options, billScn0, round2, roundHalfEven, mkTrigger, Rng.nextU, src0,
      pickCum, List.find?]
    simp
  · norm_num [commit_day, commitList, commitOne, commitPick, stBill, billOffer0, billScn0,
      build_options, round2, roundHalfEven, mkTrigger, Rng.nextU, src0, pickCum, List.find?,
      lookupAt, removeAt, triggersFold, schedule_trigger, appendAt, dummyOption, initState,
      addPlan]
    try simp
    try norm_num [Int.fract]
  · norm_num [commit_day, commitList, commitOne, commitPick, stBill, billOffer0, billScn0,
      build_options, round2, roundHalfEven, mkTrigger, Rng.nextU, src0, pickCum, List.find?,
      lookupAt, removeAt, triggersFold, schedule_trigger, appendAt, dummyOption, initState,
      addPlan]
    try simp
    try norm_num [Int.fract]

/-! ### C9: commit never fails the day, defaulting to the first option -/

lemma resolvedPair_default (choices : Nat → Option String) (o : Offer)
    (hfe : o.forcedEvent = none)
    (h : choices o.offerId = none ∨
      ∃ c, choices o.offerId = some c ∧ ∀ opt ∈ o.options, ¬ opt.code = c) :
    resolvedPair choices o =
      ((o.options.headD dummyOption).code, (o.options.headD dummyOption).amountNow) := by
  unfold resolvedPair resolvedOption
  rw [hfe]
  rcases h with hnone | ⟨c, hc, hall⟩
  · rw [hnone]
    cases ho : o.options with
    | nil => simp [List.find?]
    | cons a as =>
      simp only [Option.getD_none, List.headD_cons]
      rw [List.find?_cons_of_pos _ (by simp)]
      simp
  · rw [hc]
    have hfind : o.options.find? (fun x => x.code == c) = none :=
      List.find?_eq_none.mpr (fun x hx => by simpa using hall x hx)
    simp only [Option.getD_some, hfind, Option.getD_none]

/-- C9. `commit_day` resolves every pending offer of the day (one
committed event per offer, never rejecting the day): an offer whose id is
missing from the choice map, or whose supplied option code is not among
its options, is settled with its first option. -/
theorem commit_defaults_first_option (src : RngSrc) (day : Int)
    (choices : Nat → Option String) (st : EngineState) (rng : Rng) :
    (commit_day src day choices st rng).1.length =
      (lookupAt st.pendingOffers day).length ∧
    (commit_day src day choices st rng).1.map (fun e => (e.chosenOption, e.amount)) =
      (lookupAt st.pendingOffers day).map (resolvedPair choices) ∧
    (∀ o ∈ lookupAt st.pendingOffers day, o.forcedEvent = none →
      (choices o.offerId = none ∨
        ∃ c, choices o.offerId = some c ∧ ∀ opt ∈ o.options, ¬ opt.code = c) →
      resolvedPair choices o =
        ((o.options.headD dummyOption).code, (o.options.headD dummyOption).amountNow)) :=
  ⟨(commit_day_spec src day choices st rng).2.2.1,
   (commit_day_spec src day choices st rng).2.2.2,
   fun o _ hfe h => resolvedPair_default choices o hfe h⟩

/-- C9 witness: committing a day with an empty choice map still settles
the pending bill offer, with its first option (`pay_now`). -/
theorem commit_defaults_first_option_witness :
    (commit_day src0 7 (fun _ => none) stBill ⟨0, 0⟩).1.length =
      (lookupAt stBill.pendingOffers 7).length ∧
    resolvedPair (fun _ => none) billOffer0 =
      ((billOffer0.options.headD dummyOption).code,
       (billOffer0.options.headD dummyOption).amountNow) :=
  ⟨(commit_defaults_first_option src0 7 (fun _ => none) stBill ⟨0, 0⟩).1,
   (commit_defaults_first_option src0 7 (fun _ => none) stBill ⟨0, 0⟩).2.2 billOffer0
     (by rw [show lookupAt stBill.pendingOffers 7 = [billOffer0] from rfl]
         exact List.mem_singleton_self _)
     rfl (Or.inl rfl)⟩

/-! ### Structure of `propose_day` (C4, C8, C10) -/

lemma instantiate_event_state (src : RngSrc) (scn : Scenario) (day : Int)
    (st : EngineState) (o : Option ℚ) (e : String) (rng : Rng) :
    (instantiate_event src scn day st o e rng).2.1 =
      { st with uidCounter := st.uidCounter + 1 } := by
  unfold instantiate_event
  cases o <;> rfl

lemma instantiate_event_fields (src : RngSrc) (scn : Scenario) (day : Int)
    (st : EngineState) (o : Option ℚ) (e : String) (rng : Rng) :
    (instantiate_event src scn day st o e rng).1.scenarioId = scn.id ∧
    (instantiate_event src scn day st o e rng).1.etype = scn.stype ∧
    (instantiate_event src scn day st o e rng).1.name = scn.name := by
  unfold instantiate_event
  cases o <;> exact ⟨rfl, rfl, rfl⟩

/-- The engine-state fields that propose-side stages never touch. -/
def SameCore (a b : EngineState) : Prop :=
  a.balance = b.balance ∧ a.history = b.history ∧
  a.activeSavingPlans = b.activeSavingPlans ∧ a.pendingOffers = b.pendingOffers ∧
  a.delayedEvents = b.delayedEvents

lemma SameCore.refl (a : EngineState) : SameCore a a := ⟨rfl, rfl, rfl, rfl, rfl⟩

lemma SameCore.trans {a b c : EngineState} (h1 : SameCore a b) (h2 : SameCore b c) :
    SameCore a c :=
  ⟨h1.1.trans h2.1, h1.2.1.trans h2.2.1, h1.2.2.1.trans h2.2.2.1,
   h1.2.2.2.1.trans h2.2.2.2.1, h1.2.2.2.2.trans h2.2.2.2.2⟩

lemma instantiate_event_core (src : RngSrc) (scn : Scenario) (day : Int)
    (st : EngineState) (o : Option ℚ) (e : String) (rng : Rng) :
    SameCore (instantiate_event src scn day st o e rng).2.1 st := by
  rw [instantiate_event_state]
  exact ⟨rfl, rfl, rfl, rfl, rfl⟩

lemma realizeOne_core (src : RngSrc) (cat : List Scenario) (today : Int)
    (p : SpawnPayload) (st : EngineState) (rng : Rng) :
    SameCore (realizeOne src cat today p st rng).2.1 st := by
  simp only [realizeOne]
  by_cases hl : p.spawn = "lottery_result"
  · rw [if_pos hl]
    cases findById cat "lottery_result" with
    | some scn =>
      exact instantiate_event_core src scn today st (some (lotteryRoll src rng).1)
        (lotteryRoll src rng).2.1 (lotteryRoll src rng).2.2
    | none => exact SameCore.refl st
  · rw [if_neg hl]
    cases findById cat p.spawn with
    | some scn =>
      exact instantiate_event_core src scn today st p.overrideAmount p.extraDesc rng
    | none => exact SameCore.refl st

lemma realizeList_core (src : RngSrc) (cat : List Scenario) (today : Int)
    (ps : List SpawnPayload) : ∀ (st : EngineState) (rng : Rng),
    SameCore (realizeList src cat today ps st rng).2.1 st := by
  induction ps with
  | nil => intro st rng; exact SameCore.refl st
  | cons p ps ih =>
    intro st rng
    have h1 := realizeOne_core src cat today p st rng
    have h2 := ih (realizeOne src cat today p st rng).2.1
      (realizeOne src cat today p st rng).2.2
    have h3 := h2.trans h1
    simp only [realizeList]
    cases (realizeOne src cat today p st rng).1 with
    | none => exact h3
    | some ev => exact h3

lemma assignForced_core (day : Int) (label : String) (evs : List CommittedEvent) :
    ∀ st : EngineState, SameCore (assignForced day label evs st).2 st := by
  induction evs with
  | nil => intro st; exact SameCore.refl st
  | cons ev evs ih =>
    intro st
    simp only [assignForced]
    exact (ih { st with uidCounter := st.uidCounter + 1 }).trans ⟨rfl, rfl, rfl, rfl, rfl⟩

lemma detOffers_core (src : RngSrc) (user : UserProfile) (day : Int) (l : List Scenario) :
    ∀ (st : EngineState) (rng : Rng),
    SameCore (detOffers src user day l st rng).2.1 st := by
  induction l with
  | nil => intro st rng; exact SameCore.refl st
  | cons scn rest ih =>
    intro st rng
    simp only [detOffers]
    by_cases h : (scn.deterministic && is_scheduled_today scn user day) = true
    · rw [if_pos h]
      by_cases hp : scn.name = "Paycheck"
      · rw [if_pos hp]
        exact (ih _ _).trans (SameCore.trans ⟨rfl, rfl, rfl, rfl, rfl⟩
          ((instantiate_event_core src scn day
              { st with lastPayAmount := user.payCycle.amount }
              (some user.payCycle.amount) "" rng).trans ⟨rfl, rfl, rfl, rfl, rfl⟩))
      · rw [if_neg hp]
        exact (ih _ _).trans (SameCore.trans ⟨rfl, rfl, rfl, rfl, rfl⟩
          (instantiate_event_core src scn day st none "" rng))
    · rw [if_neg h]
      exact ih st rng

lemma probAccept_core (src : RngSrc) (user : UserProfile) (day : Int) (cap : Nat)
    (l : List (Scenario × ℝ)) : ∀ (chosen : Nat) (st : EngineState) (rng : Rng),
    SameCore (probAccept src user day cap l chosen st rng).2.1 st := by
  induction l with
  | nil => intro chosen st rng; exact SameCore.refl st
  | cons sp rest ih =>
    intro chosen st rng
    rcases sp with ⟨scn, pr⟩
    simp only [probAccept]
    by_cases hc : cap ≤ chosen
    · rw [if_pos hc]; exact SameCore.refl st
    · rw [if_neg hc]
      by_cases hb : (((rng.nextU src).1 : ℚ) : ℝ) < pr
      · rw [if_pos hb]
        exact (ih _ _ _).trans (SameCore.trans ⟨rfl, rfl, rfl, rfl, rfl⟩
          (instantiate_event_core src scn day st none "" (rng.nextU src).2))
      · rw [if_neg hb]
        exact ih chosen st (rng.nextU src).2

lemma contribStep_state_core (src : RngSrc) (cat : List Scenario) (today : Int)
    (ps : List SavingPlan) : ∀ (st : EngineState) (rng : Rng),
    SameCore (contribStep src cat today ps st rng).2.2.1 st := by
  induction ps with
  | nil => intro st rng; exact SameCore.refl st
  | cons plan rest ih =>
    intro st rng
    simp only [contribStep]
    by_cases he : contribEmits plan today = true
    · rw [if_pos he]
      cases findById cat "saving_contribution" with
      | some scn =>
        exact (ih _ _).trans (instantiate_event_core src scn today st
          (some (-contribAmt plan today)) ("Auto-contribution to " ++ plan.name) rng)
      | none => exact ih st rng
    · rw [if_neg he]
      exact ih st rng

/-- With the reserved contribution scenario present, the plans after the
contribution stage are exactly the pointwise `contribUpdate` of the input
plans. -/
lemma contribStep_plans (src : RngSrc) (cat : List Scenario) (today : Int)
    (scnC : Scenario) (hfind : findById cat "saving_contribution" = some scnC)
    (ps : List SavingPlan) : ∀ (st : EngineState) (rng : Rng),
    (contribStep src cat today ps st rng).2.1 = ps.map (contribUpdate today) := by
  induction ps with
  | nil => intro st rng; rfl
  | cons plan rest ih =>
    intro st rng
    simp only [contribStep, contribUpdate, List.map_cons]
    by_cases he : contribEmits plan today = true
    · rw [if_pos he, hfind, if_pos he]
      simp only []
      rw [ih _ _]
    · rw [if_neg he, if_neg he]
      rw [ih _ _]

lemma lookupAt_removeAt {α : Type} (m : List (Int × List α)) (day : Int) :
    lookupAt (removeAt m day) day = [] := by
  unfold lookupAt removeAt
  induction m with
  | nil => rfl
  | cons e rest ih =>
    by_cases h : e.1 = day
    · simpa [List.filter_cons, h] using ih
    · simpa [List.filter_cons, h, List.find?_cons, show (e.1 == day) = false by simp [h]]
        using ih

lemma lookupAt_setAt {α : Type} (m : List (Int × List α)) (day : Int) (xs : List α) :
    lookupAt (setAt m day xs) day = xs := by
  induction m with
  | nil => simp [setAt, lookupAt, List.find?]
  | cons e rest ih =>
    unfold setAt
    by_cases h : e.1 = day
    · rw [if_pos (by simp [List.find?_cons, h])]
      simp [lookupAt, List.find?_cons, List.map_cons, h]
    · by_cases h2 : ((rest.find? (fun x => x.1 == day)).isSome : Prop)
      · rw [if_pos (by simpa [List.find?_cons, show (e.1 == day) = false by simp [h]]
          using h2)]
        unfold setAt at ih
        rw [if_pos h2] at ih
        simpa [lookupAt, List.find?_cons, show (e.1 == day) = false by simp [h],
          if_neg h] using ih
      · rw [if_neg (by simpa [List.find?_cons, show (e.1 == day) = false by simp [h]]
          using h2)]
        unfold setAt at ih
        rw [if_neg h2] at ih
        simpa [lookupAt, List.find?_cons, List.cons_append,
          show (e.1 == day) = false by simp [h]] using ih

lemma findById_id {cat : List Scenario} {sid : String} {scn : Scenario}
    (h : findById cat sid = some scn) : scn.id = sid ∧ scn ∈ cat := by
  refine ⟨?_, List.mem_of_find?_eq_some h⟩
  have := List.find?_some h
  simpa using this

lemma realizeOne_spawn (src : RngSrc) (cat : List Scenario) (today : Int)
    (p : SpawnPayload) (st : EngineState) (rng : Rng) :
    ∀ ev, (realizeOne src cat today p st rng).1 = some ev → ev.scenarioId = p.spawn := by
  intro ev hev
  simp only [realizeOne] at hev
  by_cases hl : p.spawn = "lottery_result"
  · rw [if_pos hl] at hev
    cases hf : findById cat "lottery_result" with
    | none => rw [hf] at hev; exact absurd hev (by simp)
    | some scn =>
      rw [hf] at hev
      have hev2 : (instantiate_event src scn today st (some (lotteryRoll src rng).1)
          (lotteryRoll src rng).2.1 (lotteryRoll src rng).2.2).1 = ev := by
        simpa using hev
      rw [← hev2, (instantiate_event_fields src scn today st _ _ _).1,
        (findById_id hf).1, hl]
  · rw [if_neg hl] at hev
    cases hf : findById cat p.spawn with
    | none => rw [hf] at hev; exact absurd hev (by simp)
    | some scn =>
      rw [hf] at hev
      have hev2 : (instantiate_event src scn today st p.overrideAmount
          p.extraDesc rng).1 = ev := by
        simpa using hev
      rw [← hev2, (instantiate_event_fields src scn today st _ _ _).1, (findById_id hf).1]

lemma realizeList_spawns (src : RngSrc) (cat : List Scenario) (today : Int)
    (ps : List SpawnPayload) : ∀ (st : EngineState) (rng : Rng),
    ∀ ev ∈ (realizeList src cat today ps st rng).1, ∃ p ∈ ps, ev.scenarioId = p.spawn := by
  induction ps with
  | nil => intro st rng ev h; exact absurd h (by simp [realizeList])
  | cons p ps ih =>
    intro st rng ev h
    simp only [realizeList] at h
    cases h1 : (realizeOne src cat today p st rng).1 with
    | none =>
      rw [h1] at h
      obtain ⟨q, hq, hsp⟩ := ih _ _ ev h
      exact ⟨q, List.mem_cons_of_mem _ hq, hsp⟩
    | some ev0 =>
      rw [h1] at h
      rcases List.mem_cons.mp h with rfl | h
      · exact ⟨p, List.mem_cons_self _ _, realizeOne_spawn src cat today p st rng ev h1⟩
      · obtain ⟨q, hq, hsp⟩ := ih _ _ ev h
        exact ⟨q, List.mem_cons_of_mem _ hq, hsp⟩

lemma assignForced_offers (day : Int) (label : String) (evs : List CommittedEvent) :
    ∀ (st : EngineState), ∀ o ∈ (assignForced day label evs st).1,
    ∃ ev ∈ evs, ∃ n, o = forcedOfferOf ev day n label := by
  induction evs with
  | nil => intro st o h; exact absurd h (by simp [assignForced])
  | cons ev evs ih =>
    intro st o h
    simp only [assignForced] at h
    rcases List.mem_cons.mp h with rfl | h
    · exact ⟨ev, List.mem_cons_self _ _, st.uidCounter, rfl⟩
    · obtain ⟨e2, he2, n, hn⟩ := ih _ o h
      exact ⟨e2, List.mem_cons_of_mem _ he2, n, hn⟩

lemma detOffers_sound (src : RngSrc) (user : UserProfile) (day : Int)
    (l : List Scenario) : ∀ (st : EngineState) (rng : Rng),
    ∀ o ∈ (detOffers src user day l st rng).1,
    ∃ s ∈ l, s.deterministic = true ∧ is_scheduled_today s user day = true ∧
      o.scenarioId = s.id ∧ o.forcedEvent = none := by
  induction l with
  | nil => intro st rng o h; exact absurd h (by simp [detOffers])
  | cons scn rest ih =>
    intro st rng o h
    simp only [detOffers] at h
    by_cases hc : (scn.deterministic && is_scheduled_today scn user day) = true
    · rw [if_pos hc] at h
      have hc2 : scn.deterministic = true ∧ is_scheduled_today scn user day = true := by
        simpa using hc
      rcases List.mem_cons.mp h with rfl | h
      · exact ⟨scn, List.mem_cons_self _ _, hc2.1, hc2.2, rfl, rfl⟩
      · obtain ⟨s, hs, hp⟩ := ih _ _ o h
        exact ⟨s, List.mem_cons_of_mem _ hs, hp⟩
    · rw [if_neg hc] at h
      obtain ⟨s, hs, hp⟩ := ih _ _ o h
      exact ⟨s, List.mem_cons_of_mem _ hs, hp⟩

lemma detOffers_complete (src : RngSrc) (user : UserProfile) (day : Int)
    (l : List Scenario) : ∀ (st : EngineState) (rng : Rng), ∀ s ∈ l,
    s.deterministic = true → is_scheduled_today s user day = true →
    ∃ o ∈ (detOffers src user day l st rng).1, o.scenarioId = s.id := by
  induction l with
  | nil => intro st rng s h; exact absurd h (by simp)
  | cons scn rest ih =>
    intro st rng s hs hdet hsch
    simp only [detOffers]
    rcases List.mem_cons.mp hs with rfl | hs
    · rw [if_pos (by rw [hdet, hsch]; rfl)]
      refine ⟨_, List.mem_cons_self _ _, rfl⟩
    · by_cases hc : (scn.deterministic && is_scheduled_today scn user day) = true
      · rw [if_pos hc]
        obtain ⟨o, ho, hid⟩ := ih _ _ s hs hdet hsch
        exact ⟨o, List.mem_cons_of_mem _ ho, hid⟩
      · rw [if_neg hc]
        exact ih _ _ s hs hdet hsch

lemma probPool_mem (cat : List Scenario) (user : UserProfile) (today : Int)
    (st : EngineState) : ∀ sp ∈ probPool cat user today st,
    sp.1 ∈ cat ∧ sp.1.deterministic = false := by
  intro sp hsp
  unfold probPool at hsp
  obtain ⟨a, ha, hfa⟩ := List.mem_filterMap.mp hsp
  by_cases hd : a.deterministic = true
  · rw [if_pos hd] at hfa
    exact absurd hfa (by simp)
  · rw [if_neg hd] at hfa
    have hfa2 : (if 0 < (compute_probability st a user today).1 then
        some (a, (compute_probability st a user today).1) else none) = some sp := hfa
    split at hfa2
    · cases hfa2
      exact ⟨ha, Bool.of_not_eq_true hd⟩
    · exact absurd hfa2 (by simp)

lemma probAccept_sound (src : RngSrc) (user : UserProfile) (day : Int) (cap : Nat)
    (l : List (Scenario × ℝ)) : ∀ (chosen : Nat) (st : EngineState) (rng : Rng),
    ∀ o ∈ (probAccept src user day cap l chosen st rng).1,
    ∃ sp ∈ l, o.scenarioId = sp.1.id := by
  induction l with
  | nil => intro chosen st rng o h; exact absurd h (by simp [probAccept])
  | cons sp rest ih =>
    intro chosen st rng o h
    rcases sp with ⟨scn, pr⟩
    simp only [probAccept] at h
    by_cases hc : cap ≤ chosen
    · rw [if_pos hc] at h
      exact absurd h (by simp)
    · rw [if_neg hc] at h
      by_cases hb : (((rng.nextU src).1 : ℚ) : ℝ) < pr
      · rw [if_pos hb] at h
        rcases List.mem_cons.mp h with rfl | h
        · exact ⟨(scn, pr), List.mem_cons_self _ _, rfl⟩
        · obtain ⟨q, hq, hid⟩ := ih _ _ _ o h
          exact ⟨q, List.mem_cons_of_mem _ hq, hid⟩
      · rw [if_neg hb] at h
        obtain ⟨q, hq, hid⟩ := ih _ _ _ o h
        exact ⟨q, List.mem_cons_of_mem _ hq, hid⟩

lemma contribStep_ids (src : RngSrc) (cat : List Scenario) (today : Int)
    (ps : List SavingPlan) : ∀ (st : EngineState) (rng : Rng),
    ∀ ev ∈ (contribStep src cat today ps st rng).1,
    ev.scenarioId = "saving_contribution" := by
  induction ps with
  | nil => intro st rng ev h; exact absurd h (by simp [contribStep])
  | cons plan rest ih =>
    intro st rng ev h
    simp only [contribStep] at h
    by_cases he : contribEmits plan today = true
    · rw [if_pos he] at h
      cases hf : findById cat "saving_contribution" with
      | none => rw [hf] at h; exact ih _ _ ev h
      | some scn =>
        rw [hf] at h
        rcases List.mem_cons.mp h with rfl | h
        · rw [(instantiate_event_fields src scn today st _ _ _).1, (findById_id hf).1]
        · exact ih _ _ ev h
    · rw [if_neg he] at h
      exact ih _ _ ev h

/-! ### C4: deterministic scenarios appear exactly per their schedule -/

def user0 : UserProfile :=
  { name := "u", segmentKey := "early_career", mood := "bored",
    payCycle := { ctype := "biweekly", startDay := 1, amount := 2000 },
    predispositions := [], baseBalance := 1500 }

/-- C4. A deterministic scenario always gets probability exactly 0 from
the composer, and (when no delayed spawn of it is due and ids are unique)
`propose_day` offers it on a day iff its schedule predicate holds; the
schedule predicates are the `every_n_days` / pay-cycle formulas. -/
theorem deterministic_schedule_iff (src : RngSrc) (cat : List Scenario)
    (user : UserProfile) (day : Int) (mx : Nat) (st : EngineState) (rng : Rng)
    (scn : Scenario) (hmem : scn ∈ cat) (hdet : scn.deterministic = true)
    (huniq : ∀ s ∈ cat, s.id = scn.id → s = scn)
    (hnd : ∀ p ∈ lookupAt st.delayedEvents day, ¬ p.spawn = scn.id)
    (hsc : ¬ scn.id = "saving_contribution") :
    (compute_probability st scn user day).1 = 0 ∧
    ((∃ o ∈ (propose_day src cat user day mx st rng).1, o.scenarioId = scn.id) ↔
      is_scheduled_today scn user day = true) ∧
    (∀ n offset, scn.schedule = some (.everyNDays n offset) →
      (is_scheduled_today scn user day = true ↔
        ((day - offset) % n = 0 ∧ offset ≤ day))) ∧
    (scn.schedule = some .payCycle →
      ((user.payCycle.ctype = "weekly" →
        (is_scheduled_today scn user day = true ↔
          (user.payCycle.startDay ≤ day ∧ (day - user.payCycle.startDay) % 7 = 0))) ∧
       (user.payCycle.ctype = "biweekly" →
        (is_scheduled_today scn user day = true ↔
          (user.payCycle.startDay ≤ day ∧ (day - user.payCycle.startDay) % 14 = 0))) ∧
       (user.payCycle.ctype = "semimonthly" →
        (is_scheduled_today scn user day = true ↔
          (day = user.payCycle.startDay ∨ (day - user.payCycle.startDay) % 15 = 0))) ∧
       (¬ user.payCycle.ctype = "weekly" → ¬ user.payCycle.ctype = "biweekly" →
        ¬ user.payCycle.ctype = "semimonthly" →
        (is_scheduled_today scn user day = true ↔
          (user.payCycle.startDay ≤ day ∧ (day - user.payCycle.startDay) % 30 = 0))))) := by
  refine ⟨by simp [compute_probability, hdet], ⟨?_, ?_⟩, ?_, ?_⟩
  · rintro ⟨o, ho, hid⟩
    simp only [propose_day, List.mem_append] at ho
    rcases ho with ((hf | hd) | hp) | hc
    · obtain ⟨ev, hev, n, rfl⟩ := assignForced_offers _ _ _ _ _ hf
      obtain ⟨p, hpm, hps⟩ := realizeList_spawns src cat day
        (lookupAt st.delayedEvents day) _ _ ev hev
      exact absurd (hps ▸ hid) (hnd p hpm)
    · obtain ⟨s, hsmem, _, hsch, hid2, _⟩ := detOffers_sound src user day cat _ _ o hd
      have : s = scn := huniq s hsmem (hid2 ▸ hid)
      rwa [this] at hsch
    · obtain ⟨sp, hsp, hid2⟩ := probAccept_sound src user day mx _ _ _ _ o hp
      simp only [sortPool] at hsp
      have hsp2 := List.mem_mergeSort.mp hsp
      obtain ⟨hm, hdf⟩ := probPool_mem _ _ _ _ sp hsp2
      have heq : sp.1 = scn := huniq sp.1 hm (hid2 ▸ hid)
      rw [heq] at hdf
      rw [hdet] at hdf
      exact absurd hdf (by simp)
    · obtain ⟨ev, hev, n, rfl⟩ := assignForced_offers _ _ _ _ _ hc
      have hcid := contribStep_ids src cat day _ _ _ ev hev
      have hid2 : ev.scenarioId = scn.id := hid
      rw [hcid] at hid2
      exact absurd hid2.symm hsc
  · intro hsch
    obtain ⟨o, ho, hid⟩ := detOffers_complete src user day cat
      (assignForced day "Forced" (realize_delayed src cat day st rng).1
        (realize_delayed src cat day st rng).2.1).2
      (realize_delayed src cat day st rng).2.2 scn hmem hdet hsch
    refine ⟨o, ?_, hid⟩
    simp only [propose_day, List.mem_append]
    exact Or.inl (Or.inl (Or.inr ho))
  · intro n offset hs
    unfold is_scheduled_today
    rw [hs]
    simp [and_comm]
  · intro hs
    refine ⟨?_, ?_, ?_, ?_⟩
    · intro hw; unfold is_scheduled_today; rw [hs]; simp [hw]
    · intro hw; unfold is_scheduled_today; rw [hs]; simp [hw]
    · intro hw; unfold is_scheduled_today; rw [hs]; simp [hw]
    · intro h1 h2 h3; unfold is_scheduled_today; rw [hs]; simp [h1, h2, h3]

/-- State equations of `propose_day`: balance and history unchanged, the
day's delayed queue consumed, the day's pending offers overwritten, and
the plans advanced by the contribution stage. -/
lemma propose_day_core (src : RngSrc) (cat : List Scenario) (user : UserProfile)
    (day : Int) (mx : Nat) (st : EngineState) (rng : Rng) :
    (propose_day src cat user day mx st rng).2.1.balance = st.balance ∧
    (propose_day src cat user day mx st rng).2.1.history = st.history ∧
    (propose_day src cat user day mx st rng).2.1.delayedEvents =
      removeAt st.delayedEvents day ∧
    (propose_day src cat user day mx st rng).2.1.pendingOffers =
      setAt st.pendingOffers day (propose_day src cat user day mx st rng).1 ∧
    ∃ S R, (propose_day src cat user day mx st rng).2.1.activeSavingPlans =
      (contribStep src cat day st.activeSavingPlans S R).2.1 := by
  simp only [propose_day]
  set rd := realize_delayed src cat day st rng with hrddef
  set fo := assignForced day "Forced" rd.1 rd.2.1 with hfodef
  set dd := detOffers src user day cat fo.2 rd.2.2 with hdddef
  set pa := probAccept src user day mx (sortPool (probPool cat user day dd.2.1)) 0
    dd.2.1 dd.2.2 with hpadef
  set cs := contribStep src cat day pa.2.1.activeSavingPlans pa.2.1 pa.2.2 with hcsdef
  set co := assignForced day "Scheduled contribution" cs.1 cs.2.2.1 with hcodef
  have hrd : SameCore rd.2.1 { st with delayedEvents := removeAt st.delayedEvents day } :=
    realizeList_core src cat day (lookupAt st.delayedEvents day)
      { st with delayedEvents := removeAt st.delayedEvents day } rng
  have hfo : SameCore fo.2 rd.2.1 := assignForced_core day "Forced" rd.1 rd.2.1
  have hdd : SameCore dd.2.1 fo.2 := detOffers_core src user day cat fo.2 rd.2.2
  have hpa : SameCore pa.2.1 dd.2.1 :=
    probAccept_core src user day mx (sortPool (probPool cat user day dd.2.1)) 0
      dd.2.1 dd.2.2
  have hcs : SameCore cs.2.2.1 pa.2.1 :=
    contribStep_state_core src cat day pa.2.1.activeSavingPlans pa.2.1 pa.2.2
  have hco : SameCore co.2 cs.2.2.1 :=
    assignForced_core day "Scheduled contribution" cs.1 cs.2.2.1
  have hchain : SameCore co.2 { st with delayedEvents := removeAt st.delayedEvents day } :=
    (((((hco.trans hcs).trans hpa).trans hdd).trans hfo).trans hrd)
  have hplans : pa.2.1.activeSavingPlans = st.activeSavingPlans :=
    (((hpa.trans hdd).trans hfo).trans hrd).2.2.1
  refine ⟨hchain.1, hchain.2.1, hchain.2.2.2.2, ?_, pa.2.1, pa.2.2, ?_⟩
  · rw [hchain.2.2.2.1]
  · rw [hcsdef, hplans]

/-- C4 witness: the monthly bill (offset 1) is offered on day 31 from a
fresh state. -/
theorem deterministic_schedule_iff_witness :
    (∃ o ∈ (propose_day src0 [billScn0] user0 31 6 (initState 1500 2000) ⟨0, 0⟩).1,
      o.scenarioId = billScn0.id) ↔ is_scheduled_today billScn0 user0 31 = true :=
  (deterministic_schedule_iff src0 [billScn0] user0 31 6 (initState 1500 2000) ⟨0, 0⟩
    billScn0 (List.mem_singleton_self _) rfl
    (by intro s hs _; simpa using hs)
    (by intro p hp; simp [initState, lookupAt] at hp)
    (by decide)).2.1

/-! ### C10: proposal advances savings plans but not balance or history -/

/-- C10. `propose_day` leaves the running balance and the history
untouched, yet already advances every due plan's `contributed` by the
(positive) contribution amount at proposal time. -/
theorem propose_mutates_plans_only (src : RngSrc) (cat : List Scenario)
    (user : UserProfile) (day : Int) (mx : Nat) (st : EngineState) (rng : Rng)
    (scnC : Scenario) (hfind : findById cat "saving_contribution" = some scnC) :
    (propose_day src cat user day mx st rng).2.1.balance = st.balance ∧
    (propose_day src cat user day mx st rng).2.1.history = st.history ∧
    (propose_day src cat user day mx st rng).2.1.activeSavingPlans =
      st.activeSavingPlans.map (contribUpdate day) ∧
    (∀ plan : SavingPlan, contribEmits plan day = true →
      (contribUpdate day plan).contributed = plan.contributed + contribAmt plan day ∧
      0 < contribAmt plan day) := by
  obtain ⟨hb, hh, _, _, S, R, hpl⟩ := propose_day_core src cat user day mx st rng
  refine ⟨hb, hh, ?_, ?_⟩
  · rw [hpl, contribStep_plans src cat day scnC hfind st.activeSavingPlans S R]
  · intro plan he
    have hrem : 0 < plan.remaining := by
      by_contra hle
      push_neg at hle
      simp [contribEmits, hle] at he
    constructor
    · unfold contribUpdate
      rw [if_pos he]
    · unfold contribAmt
      exact lt_min (lt_of_lt_of_le (by norm_num) (le_max_right _ 5)) hrem

def plan0 : SavingPlan :=
  { planId := 0, name := "p", total := 500, startDay := 10, dueDay := 100,
    frequency := "weekly", contributed := 0 }

def stPlan : EngineState := { initState 1500 2000 with activeSavingPlans := [plan0] }

/-- C10 witness: a concrete due plan is advanced by proposing day 10 while
balance and history stay put. -/
theorem propose_mutates_plans_only_witness :
    (propose_day src0 [savingContributionScn] user0 10 6 stPlan ⟨0, 0⟩).2.1.balance =
      stPlan.balance ∧
    (propose_day src0 [savingContributionScn] user0 10 6 stPlan ⟨0, 0⟩).2.1.history =
      stPlan.history ∧
    (propose_day src0 [savingContributionScn] user0 10 6 stPlan ⟨0, 0⟩).2.1.activeSavingPlans =
      [plan0].map (contribUpdate 10) ∧
    ((contribUpdate 10 plan0).contributed = plan0.contributed + contribAmt plan0 10 ∧
      0 < contribAmt plan0 10) := by
  have h := propose_mutates_plans_only src0 [savingContributionScn] user0 10 6 stPlan
    ⟨0, 0⟩ savingContributionScn rfl
  refine ⟨h.1, h.2.1, h.2.2.1, h.2.2.2 plan0 ?_⟩
  norm_num [contribEmits, planDueToday, SavingPlan.remaining, plan0]

/-! ### C8: re-invoking propose is not a pure re-derivation -/

lemma assignForced_length (day : Int) (label : String) (evs : List CommittedEvent) :
    ∀ st : EngineState, (assignForced day label evs st).1.length = evs.length := by
  induction evs with
  | nil => intro st; rfl
  | cons ev evs ih =>
    intro st
    simp only [assignForced, List.length_cons]
    rw [ih]

lemma detOffers_skip (src : RngSrc) (user : UserProfile) (day : Int)
    (l : List Scenario) (hdetf : ∀ s ∈ l, s.deterministic = false) :
    ∀ (st : EngineState) (rng : Rng), detOffers src user day l st rng = ([], st, rng) := by
  induction l with
  | nil => intro st rng; rfl
  | cons scn rest ih =>
    intro st rng
    simp only [detOffers]
    rw [if_neg (by
      rw [hdetf scn (List.mem_cons_self _ _)]
      simp)]
    exact ih (fun s hs => hdetf s (List.mem_cons_of_mem _ hs)) st rng

lemma probPool_base_zero (cat : List Scenario) (user : UserProfile) (today : Int)
    (hbase : ∀ s ∈ cat, s.baseDailyProb = 0) (st : EngineState) :
    probPool cat user today st = [] := by
  unfold probPool
  rw [List.filterMap_eq_nil_iff]
  intro scn hscn
  by_cases hd : scn.deterministic = true
  · rw [if_pos hd]
  · rw [if_neg hd]
    have hp0 : (compute_probability st scn user today).1 = 0 := by
      rw [compute_probability_spec st scn user today (Bool.of_not_eq_true hd)]
      rw [hbase scn hscn]
      push_cast
      rw [zero_mul, zero_mul, zero_mul, zero_mul, zero_mul]
      rw [max_self]
      exact min_eq_left (by norm_num)
    simp only [hp0]
    rw [if_neg (by norm_num)]

/-- Proposal keeps an empty plan ledger empty. -/
lemma propose_day_plans_nil (src : RngSrc) (cat : List Scenario) (user : UserProfile)
    (day : Int) (mx : Nat) (st : EngineState) (rng : Rng)
    (h : st.activeSavingPlans = []) :
    (propose_day src cat user day mx st rng).2.1.activeSavingPlans = [] := by
  obtain ⟨_, _, _, _, S, R, hpl⟩ := propose_day_core src cat user day mx st rng
  rw [hpl, h]
  rfl

/-- For a catalog with no deterministic scenario and all base rates zero,
and no active plans, the proposal consists exactly of the realized delayed
spawns. -/
lemma propose_day_quiet (src : RngSrc) (cat : List Scenario) (user : UserProfile)
    (day : Int) (mx : Nat) (st : EngineState) (rng : Rng)
    (hdetf : ∀ s ∈ cat, s.deterministic = false)
    (hbase : ∀ s ∈ cat, s.baseDailyProb = 0)
    (hplans : st.activeSavingPlans = []) :
    (propose_day src cat user day mx st rng).1.length =
      (realize_delayed src cat day st rng).1.length := by
  simp only [propose_day]
  set rd := realize_delayed src cat day st rng with hrddef
  set fo := assignForced day "Forced" rd.1 rd.2.1 with hfodef
  rw [detOffers_skip src user day cat hdetf fo.2 rd.2.2]
  rw [probPool_base_zero cat user day hbase]
  have hfoplans : fo.2.activeSavingPlans = [] := by
    have h1 : SameCore rd.2.1 { st with delayedEvents := removeAt st.delayedEvents day } :=
      realizeList_core src cat day (lookupAt st.delayedEvents day)
        { st with delayedEvents := removeAt st.delayedEvents day } rng
    have h2 : SameCore fo.2 rd.2.1 := assignForced_core day "Forced" rd.1 rd.2.1
    rw [(h2.trans h1).2.2.1]
    exact hplans
  simp only [sortPool, List.mergeSort_nil, probAccept, hfoplans, contribStep,
    assignForced, List.append_nil, List.length_append, List.length_nil]
  rw [assignForced_length]

/-- The queue that a second proposal of the same day would realize is
empty: the first call consumed it. -/
lemma realize_delayed_second (src : RngSrc) (cat : List Scenario) (day : Int)
    (st : EngineState) (rng : Rng) (h : lookupAt st.delayedEvents day = []) :
    (realize_delayed src cat day st rng).1 = [] := by
  simp only [realize_delayed]
  rw [h]
  rfl

/-- C8 (amended). Re-invoking propose for the same day is not a pure
re-derivation from unchanged pending state: the first invocation consumes
the delayed spawns due that day (the day's queue is empty afterwards) and
overwrites the day's pending offers with its own result, so a second
invocation cannot realize those spawns again (and, per the plan ledger,
derives contributions from the already-advanced plans). -/
theorem propose_reinvoke_consumes_state (src : RngSrc) (cat : List Scenario)
    (user : UserProfile) (day : Int) (mx : Nat) (st : EngineState) (rng : Rng) :
    lookupAt (propose_day src cat user day mx st rng).2.1.delayedEvents day = [] ∧
    lookupAt (propose_day src cat user day mx st rng).2.1.pendingOffers day =
      (propose_day src cat user day mx st rng).1 ∧
    (realize_delayed src cat day (propose_day src cat user day mx st rng).2.1
      (propose_day src cat user day mx st rng).2.2).1 = [] := by
  obtain ⟨_, _, hd, hp, _⟩ := propose_day_core src cat user day mx st rng
  have h1 : lookupAt (propose_day src cat user day mx st rng).2.1.delayedEvents day = [] := by
    rw [hd]; exact lookupAt_removeAt st.delayedEvents day
  refine ⟨h1, ?_, ?_⟩
  · rw [hp]; exact lookupAt_setAt st.pendingOffers day _
  · exact realize_delayed_second src cat day _ _ h1

def cexPayload : SpawnPayload :=
  { spawn := "late_fee_generic", overrideAmount := some (-25), extraDesc := "",
    sourceEventId := 0 }

def cexSt : EngineState :=
  { initState 1500 2000 with delayedEvents := [(5, [cexPayload])] }

def cexCat : List Scenario := [lateFeeGenericScn]

/-- C8 counterexample: with a late-fee spawn queued for day 5, the first
`propose_day` call for day 5 yields exactly one (forced) offer, but
re-invoking it on the resulting state with no commit in between yields no
offer at all — the day's offers are not re-derived from the same pending
state. -/
theorem propose_reinvoke_not_idempotent_cex :
    (propose_day src0 cexCat user0 5 6 cexSt ⟨0, 0⟩).1.length = 1 ∧
    (propose_day src0 cexCat user0 5 6
      (propose_day src0 cexCat user0 5 6 cexSt ⟨0, 0⟩).2.1
      (propose_day src0 cexCat user0 5 6 cexSt ⟨0, 0⟩).2.2).1.length = 0 := by
  have hdetf : ∀ s ∈ cexCat, s.deterministic = false := by
    intro s hs
    rcases List.mem_singleton.mp hs with rfl
    rfl
  have hbase : ∀ s ∈ cexCat, s.baseDailyProb = 0 := by
    intro s hs
    rcases List.mem_singleton.mp hs with rfl
    rfl
  constructor
  · rw [propose_day_quiet src0 cexCat user0 5 6 cexSt ⟨0, 0⟩ hdetf hbase rfl]
    simp [realize_delayed, realizeList, realizeOne, instantiate_event, lookupAt, removeAt,
      cexSt, cexPayload, cexCat, findById, List.find?, initState, lateFeeGenericScn]
  · have hplans1 :
        (propose_day src0 cexCat user0 5 6 cexSt ⟨0, 0⟩).2.1.activeSavingPlans = [] :=
      propose_day_plans_nil src0 cexCat user0 5 6 cexSt ⟨0, 0⟩ rfl
    rw [propose_day_quiet src0 cexCat user0 5 6 _ _ hdetf hbase hplans1]
    obtain ⟨_, _, hd, _, _⟩ := propose_day_core src0 cexCat user0 5 6 cexSt ⟨0, 0⟩
    rw [realize_delayed_second src0 cexCat 5 _ _
      (by rw [hd]; exact lookupAt_removeAt cexSt.delayedEvents 5)]
    rfl

/-! ### C5: lottery purchases and the three-tier payout roll -/

lemma lookupAt_appendAt {α : Type} (m : List (Int × List α)) (day : Int) (x : α) :
    lookupAt (appendAt m day x) day = lookupAt m day ++ [x] := by
  induction m with
  | nil => simp [appendAt, lookupAt, List.find?]
  | cons e rest ih =>
    unfold appendAt
    by_cases h : e.1 = day
    · rw [if_pos (by simp [List.find?_cons, h])]
      simp [lookupAt, List.find?_cons, List.map_cons, h]
    · by_cases h2 : ((rest.find? (fun x => x.1 == day)).isSome : Prop)
      · rw [if_pos (by simpa [List.find?_cons, show (e.1 == day) = false by simp [h]]
          using h2)]
        unfold appendAt at ih
        rw [if_pos h2] at ih
        simpa [lookupAt, List.find?_cons, show (e.1 == day) = false by simp [h],
          if_neg h] using ih
      · rw [if_neg (by simpa [List.find?_cons, show (e.1 == day) = false by simp [h]]
          using h2)]
        unfold appendAt at ih
        rw [if_neg h2] at ih
        simpa [lookupAt, List.find?_cons, List.cons_append,
          show (e.1 == day) = false by simp [h]] using ih

lemma instantiate_event_override (src : RngSrc) (scn : Scenario) (day : Int)
    (st : EngineState) (v : ℚ) (e : String) (rng : Rng) :
    (instantiate_event src scn day st (some v) e rng).1.amount = v := rfl

/-- A batch of probability-1 `lottery_result` triggers is enqueued in
full: each Bernoulli draw lies below 1. -/
lemma triggersFold_enqueue (src : RngSrc) (hsrc : RngOk src) (day : Int) (sid : Nat)
    (n : Nat) : ∀ (st : EngineState) (rng : Rng),
    lookupAt (triggersFold src day sid
        (List.replicate n (mkTrigger "lottery_result" 1 1 none "")) st rng).1.delayedEvents
      (day + 1) =
    lookupAt st.delayedEvents (day + 1) ++
      List.replicate n { spawn := "lottery_result", overrideAmount := none,
                         extraDesc := "", sourceEventId := sid } := by
  induction n with
  | zero => intro st rng; simp [triggersFold]
  | succ k ih =>
    intro st rng
    rw [List.replicate_succ]
    simp only [triggersFold, schedule_trigger, mkTrigger, Rng.nextU]
    rw [if_neg (by
      have h1 := (hsrc rng.u).2
      push_neg
      exact le_of_lt h1)]
    simp only [mkTrigger] at ih
    dsimp only
    rw [ih, lookupAt_appendAt]
    simp [List.replicate_succ, List.append_assoc]

/-- C5. A lottery scenario's `buy_5` option carries exactly five
`lottery_result` triggers due 1 day later (`buy_1` exactly one), each with
probability 1 and no override amount; committing `buy_5` enqueues exactly
five such payloads at `day + 1`; and each `lottery_result` spawn rolls its
amount only at realization, by the three-tier curve: draw < 0.921 gives 0,
draw in [0.921, 0.921+0.079) gives a uniform amount in [5, 50], and any
remaining draw gives a uniform amount in [1000, 10000]. -/
theorem lottery_spawns_and_payout (src : RngSrc) (cat : List Scenario)
    (scn : Scenario) (amt : ℚ) (rng : Rng) (hsrc : RngOk src)
    (hlot : scn.stype = "lottery") :
    ((build_options src scn amt rng).1.map (fun o => o.code) =
      ["skip", "buy_1", "buy_5"]) ∧
    (∀ o ∈ (build_options src scn amt rng).1,
      (o.code = "buy_5" →
        o.triggers = List.replicate 5 (mkTrigger "lottery_result" 1 1 none "")) ∧
      (o.code = "buy_1" → o.triggers = [mkTrigger "lottery_result" 1 1 none ""])) ∧
    (∀ (day : Int) (offer : Offer) (opt : OfferOption) (st : EngineState) (rng2 : Rng),
      opt.triggers = List.replicate 5 (mkTrigger "lottery_result" 1 1 none "") →
      lookupAt (commitPick src day offer opt st rng2).2.1.delayedEvents (day + 1) =
        lookupAt st.delayedEvents (day + 1) ++
          List.replicate 5 { spawn := "lottery_result", overrideAmount := none,
                             extraDesc := "", sourceEventId := st.uidCounter }) ∧
    (∀ (today : Int) (p : SpawnPayload) (st : EngineState) (rng2 : Rng)
        (ev : CommittedEvent), p.spawn = "lottery_result" →
      (realizeOne src cat today p st rng2).1 = some ev →
      ((src.unif rng2.u < 0.921 → ev.amount = 0) ∧
       (¬ src.unif rng2.u < 0.921 → src.unif rng2.u < 0.921 + 0.079 →
         5 ≤ ev.amount ∧ ev.amount ≤ 50) ∧
       (¬ src.unif rng2.u < 0.921 + 0.079 →
         1000 ≤ ev.amount ∧ ev.amount ≤ 10000))) := by
  refine ⟨?_, ?_, ?_, ?_⟩
  · simp only [build_options]
    rw [if_neg (by rw [hlot]; simp), if_neg (by rw [hlot]; simp),
      if_neg (by rw [hlot]; simp), if_neg (by rw [hlot]; simp),
      if_neg (by rw [hlot]; simp), if_pos (by rw [hlot])]
    rfl
  · intro o ho
    simp only [build_options] at ho
    rw [if_neg (by rw [hlot]; simp), if_neg (by rw [hlot]; simp),
      if_neg (by rw [hlot]; simp), if_neg (by rw [hlot]; simp),
      if_neg (by rw [hlot]; simp), if_pos (by rw [hlot])] at ho
    simp only [List.map_cons, List.mem_cons] at ho
    rcases ho with rfl | rfl | rfl | h
    · exact ⟨by intro h; simp at h, by intro h; simp at h⟩
    · exact ⟨by intro h; simp at h, by intro _; rfl⟩
    · exact ⟨by intro _; rfl, by intro h; simp at h⟩
    · exact absurd h (by simp)
  · intro day offer opt st rng2 htr
    have hq := triggersFold_enqueue src hsrc day st.uidCounter 5
    show lookupAt (match opt.pledgeTotal with
      | some total => addPlan offer.name total day 90 "weekly"
          (triggersFold src day st.uidCounter opt.triggers _ rng2).1
      | none =>
        (triggersFold src day st.uidCounter opt.triggers _ rng2).1).delayedEvents (day + 1) =
      _
    cases hp : opt.pledgeTotal with
    | none =>
      simp only []
      rw [htr]
      exact hq _ _
    | some total =>
      simp only [addPlan]
      rw [htr]
      exact hq _ _
  · intro today p st rng2 ev hps hev
    simp only [realizeOne] at hev
    rw [if_pos hps] at hev
    cases hf : findById cat "lottery_result" with
    | none => rw [hf] at hev; exact absurd hev (by simp)
    | some scnL =>
      rw [hf] at hev
      have hev2 : (instantiate_event src scnL today st (some (lotteryRoll src rng2).1)
          (lotteryRoll src rng2).2.1 (lotteryRoll src rng2).2.2).1 = ev := by
        simpa using hev
      have hamt : ev.amount = (lotteryRoll src rng2).1 := by
        rw [← hev2]; rfl
      have hu0 := hsrc (rng2.u + 1)
      refine ⟨?_, ?_, ?_⟩
      · intro h1
        rw [hamt]
        simp only [lotteryRoll, Rng.nextU]
        rw [if_pos h1]
      · intro h1 h2
        rw [hamt]
        simp only [lotteryRoll, Rng.nextU]
        rw [if_neg h1, if_pos h2]
        dsimp only
        constructor
        · nlinarith [hu0.1]
        · nlinarith [hu0.2]
      · intro h2
        have h1 : ¬ src.unif rng2.u < 0.921 := by
          intro h
          exact h2 (by linarith)
        rw [hamt]
        simp only [lotteryRoll, Rng.nextU]
        rw [if_neg h1, if_neg h2]
        dsimp only
        constructor
        · nlinarith [hu0.1]
        · nlinarith [hu0.2]

/-- C5 witness: the concrete lottery-ticket scenario with a small-win
draw. -/
theorem lottery_spawns_and_payout_witness :
    ((build_options src0
        ⟨"scn_l", "Buy Lottery Ticket", "lottery", ["gambling"], "", .fixed 2, 0.03,
          false, none, 0, []⟩ (-2) ⟨0, 0⟩).1.map (fun o => o.code) =
      ["skip", "buy_1", "buy_5"]) :=
  (lottery_spawns_and_payout src0 []
    ⟨"scn_l", "Buy Lottery Ticket", "lottery", ["gambling"], "", .fixed 2, 0.03,
      false, none, 0, []⟩ (-2) ⟨0, 0⟩
    (by intro n; norm_num [src0]) rfl).1

/-! ### C6: savings-plan contribution schedule and amortization -/

/-- C6. A contribution is emitted on day `t` iff the plan is due (daily,
or `t` is the start day or a multiple of 7 after it), `t` has not passed
the due day, and remaining balance is positive; its amount is
`remaining / increments` with `increments = max 1 (remaining_days / 7)`
(1 for daily plans), floored at 5 and capped at the remaining balance, so
cumulative `contributed` never exceeds the plan total; and the engine's
contribution stage emits exactly those events (amount `-contribution`)
while advancing the plans pointwise. -/
theorem saving_contribution_emission (src : RngSrc) (cat : List Scenario)
    (today : Int) (scnC : Scenario)
    (hfind : findById cat "saving_contribution" = some scnC) :
    (∀ plan : SavingPlan, contribEmits plan today = true ↔
      ((plan.frequency = "daily" ∨
        (plan.startDay ≤ today ∧ (today - plan.startDay) % 7 = 0)) ∧
       today ≤ plan.dueDay ∧ 0 < plan.remaining)) ∧
    (∀ plan : SavingPlan, contribAmt plan today =
      min (max (plan.remaining /
        ((((if plan.frequency = "daily" then (1 : Int)
            else max 1 (max (plan.dueDay - today) 1 / 7)) : Int) : ℚ))) 5) plan.remaining) ∧
    (∀ plan : SavingPlan, plan.contributed ≤ plan.total →
      (contribUpdate today plan).contributed ≤ plan.total) ∧
    (∀ (ps : List SavingPlan) (st : EngineState) (rng : Rng),
      (contribStep src cat today ps st rng).1.map (fun e => e.amount) =
        (ps.filter (fun p => contribEmits p today)).map
          (fun p => -(contribAmt p today)) ∧
      (contribStep src cat today ps st rng).2.1 = ps.map (contribUpdate today)) := by
  refine ⟨?_, ?_, ?_, ?_⟩
  · intro plan
    rw [show (contribEmits plan today = true) ↔
        ((0 < plan.remaining ∧ today ≤ plan.dueDay) ∧
         (plan.frequency = "daily" ∨
          (plan.startDay ≤ today ∧ (today - plan.startDay) % 7 = 0))) from by
      simp [contribEmits, planDueToday, sub_nonneg]]
    tauto
  · intro plan
    by_cases hd : plan.frequency = "daily"
    · simp [contribAmt, hd]
    · simp [contribAmt, hd]
  · intro plan hc
    unfold contribUpdate
    by_cases he : contribEmits plan today = true
    · rw [if_pos he]
      have hrem : plan.remaining = plan.total - plan.contributed := by
        unfold SavingPlan.remaining
        exact max_eq_left (by linarith)
      have hcap : contribAmt plan today ≤ plan.remaining := min_le_right _ _
      show plan.contributed + contribAmt plan today ≤ plan.total
      rw [hrem] at hcap
      linarith
    · rw [if_neg he]
      exact hc
  · intro ps
    induction ps with
    | nil => intro st rng; exact ⟨rfl, rfl⟩
    | cons plan rest ih =>
      intro st rng
      simp only [contribStep, contribUpdate, List.filter_cons, List.map_cons]
      by_cases he : contribEmits plan today = true
      · rw [if_pos he, hfind, if_pos he, if_pos he]
        simp only [List.map_cons]
        exact ⟨by rw [instantiate_event_override, (ih _ _).1],
          by rw [(ih _ _).2]⟩
      · rw [if_neg he, if_neg he,
          if_neg (by simpa using he)]
        exact ⟨(ih _ _).1, by rw [(ih _ _).2]⟩

/-- C6 witness: the $500/90-day style plan starting day 10 emits on day
10. -/
theorem saving_contribution_emission_witness :
    (contribEmits plan0 10 = true ↔
      ((plan0.frequency = "daily" ∨
        (plan0.startDay ≤ 10 ∧ ((10 : Int) - plan0.startDay) % 7 = 0)) ∧
       (10 : Int) ≤ plan0.dueDay ∧ 0 < plan0.remaining)) ∧
    (plan0.contributed ≤ plan0.total →
      (contribUpdate 10 plan0).contributed ≤ plan0.total) :=
  ⟨(saving_contribution_emission src0 [savingContributionScn] 10
      savingContributionScn rfl).1 plan0,
   (saving_contribution_emission src0 [savingContributionScn] 10
      savingContributionScn rfl).2.2.1 plan0⟩

/-! ### C7: the category sign convention for every committed event -/

/-- Sign convention for a category: income amounts are non-negative,
every other category's amounts are non-positive. -/
def signWrt (stype : String) (a : ℚ) : Prop :=
  (stype = "income" → 0 ≤ a) ∧ (¬ stype = "income" → a ≤ 0)

def eventSignOK (ev : CommittedEvent) : Prop := signWrt ev.etype ev.amount

/-- A trigger's override amount respects the sign convention of its spawn
target's category. -/
def trigOK (cat : List Scenario) (tr : OptionTrigger) : Prop :=
  ∀ s, findById cat tr.spawn = some s →
    ∀ v, tr.overrideAmount = some v → signWrt s.stype v

def payloadOK (cat : List Scenario) (p : SpawnPayload) : Prop :=
  ∀ s, findById cat p.spawn = some s →
    ∀ v, p.overrideAmount = some v → signWrt s.stype v

def optionOK (cat : List Scenario) (stype : String) (o : OfferOption) : Prop :=
  signWrt stype o.amountNow ∧ ∀ tr ∈ o.triggers, trigOK cat tr

def offerOK (cat : List Scenario) (o : Offer) : Prop :=
  (∀ opt ∈ o.options, optionOK cat o.otype opt) ∧
  (∀ fe, o.forcedEvent = some fe → eventSignOK fe)

/-- The sign-sanity of a catalog amount specification: every magnitude it
can produce is non-negative. -/
def amountOK : AmountSpec → Prop
  | .fixed v => 0 ≤ v
  | .uniform low high => 0 ≤ low ∧ low ≤ high
  | .normal _ _ mn => 0 ≤ mn
  | .lognormal _ _ mn mx => 0 ≤ mn ∧ ∀ m, mx = some m → 0 ≤ m
  | .percentOfPay pct => 0 ≤ pct
  | .choice opts _ => ∀ x ∈ opts, 0 ≤ x
  | .other v => 0 ≤ v

/-- Sign-sanity of a catalog, as the default catalog satisfies it: all
amount specs produce non-negative magnitudes, entries sharing an id share
a category, the reserved spawn targets have the expected categories, and
"Paycheck" is an income scenario. -/
def CatalogOk (cat : List Scenario) : Prop :=
  (∀ scn ∈ cat, amountOK scn.amount) ∧
  (∀ scn ∈ cat, ∀ s, findById cat scn.id = some s → s.stype = scn.stype) ∧
  (∀ s, findById cat "lottery_result" = some s → s.stype = "income") ∧
  (∀ s, findById cat "deferred_payment" = some s → ¬ s.stype = "income") ∧
  (∀ s, findById cat "late_fee_generic" = some s → ¬ s.stype = "income") ∧
  (∀ s, findById cat "saving_contribution" = some s → ¬ s.stype = "income") ∧
  (∀ scn ∈ cat, scn.name = "Paycheck" → scn.stype = "income")

def UserOk (user : UserProfile) : Prop := 0 ≤ user.payCycle.amount

/-- The sign invariant over the whole mutable engine state. -/
def Inv (cat : List Scenario) (st : EngineState) : Prop :=
  (∀ ev ∈ st.history, eventSignOK ev) ∧
  (∀ e ∈ st.pendingOffers, ∀ o ∈ e.2, offerOK cat o) ∧
  (∀ e ∈ st.delayedEvents, ∀ p ∈ e.2, payloadOK cat p)

lemma pickCum_nonneg : ∀ (opts ws : List ℚ) (t : ℚ), (∀ x ∈ opts, 0 ≤ x) →
    0 ≤ pickCum opts ws t
  | [], _, _, _ => by simp [pickCum]
  | [x], ws, t, h => by simpa [pickCum] using h x (by simp)
  | x :: y :: rest, [], t, h => by
    simpa [pickCum] using h x (by simp)
  | x :: y :: rest, w :: ws, t, h => by
    simp only [pickCum]
    split
    · exact h x (by simp)
    · exact pickCum_nonneg (y :: rest) ws (t - w)
        (fun z hz => h z (List.mem_cons_of_mem _ hz))

lemma choosePick_nonneg (opts : List ℚ) (ws : Option (List ℚ)) (u : ℚ)
    (h : ∀ x ∈ opts, 0 ≤ x) : 0 ≤ choosePick opts ws u := by
  unfold choosePick
  exact pickCum_nonneg opts _ _ h

lemma draw_amount_nonneg (src : RngSrc) (spec : AmountSpec) (lastPay : ℚ) (rng : Rng)
    (hspec : amountOK spec) (hsrc : RngOk src) :
    0 ≤ (draw_amount src spec lastPay rng).1 := by
  cases spec with
  | fixed v => exact hspec
  | uniform low high =>
    simp only [draw_amount, Rng.nextU]
    have hu := hsrc rng.u
    obtain ⟨h1, h2⟩ := hspec
    nlinarith [hu.1]
  | normal mean sd mn =>
    simp only [draw_amount, Rng.nextM]
    exact le_trans hspec (le_max_right _ _)
  | lognormal mean sigma mn mx =>
    simp only [draw_amount, Rng.nextM]
    obtain ⟨h1, h2⟩ := hspec
    cases mx with
    | none => exact le_trans h1 (le_max_right _ _)
    | some m =>
      exact le_min (le_trans h1 (le_max_right _ _)) (h2 m rfl)
  | percentOfPay pct =>
    simp only [draw_amount]
    exact mul_nonneg (abs_nonneg _) hspec
  | choice opts ws =>
    simp only [draw_amount, Rng.nextU]
    exact choosePick_nonneg opts ws _ hspec
  | other v => exact hspec

lemma draw_amount_signed_sign (src : RngSrc) (st : EngineState) (scn : Scenario)
    (rng : Rng) (hspec : amountOK scn.amount) (hsrc : RngOk src) :
    signWrt scn.stype (draw_amount_signed src st scn rng).1 := by
  have h0 := draw_amount_nonneg src scn.amount st.lastPayAmount rng hspec hsrc
  unfold draw_amount_signed
  dsimp only
  by_cases hi : scn.stype = "income"
  · rw [if_pos hi]
    exact ⟨fun _ => h0, fun h => absurd hi h⟩
  · rw [if_neg hi]
    exact ⟨fun h => absurd h hi, fun _ => by simpa using h0⟩

lemma instantiate_event_sign (src : RngSrc) (scn : Scenario) (day : Int)
    (st : EngineState) (o : Option ℚ) (e : String) (rng : Rng)
    (hspec : amountOK scn.amount) (hsrc : RngOk src)
    (ho : ∀ v, o = some v → signWrt scn.stype v) :
    eventSignOK (instantiate_event src scn day st o e rng).1 := by
  unfold eventSignOK instantiate_event
  cases o with
  | some v => exact ho v rfl
  | none => exact draw_amount_signed_sign src st scn rng hspec hsrc

lemma roundHalfEven_nonneg (q : ℚ) (h : 0 ≤ q) : 0 ≤ roundHalfEven q := by
  have hfl : (0 : ℤ) ≤ ⌊q⌋ := Int.le_floor.mpr (by exact_mod_cast h)
  simp only [roundHalfEven]
  split
  · exact hfl
  · split
    · omega
    · split <;> omega

lemma roundHalfEven_nonpos (q : ℚ) (h : q ≤ 0) : roundHalfEven q ≤ 0 := by
  have hfl : ⌊q⌋ ≤ 0 := by
    have h2 : ⌊q⌋ ≤ ⌊(0 : ℚ)⌋ := Int.floor_le_floor h
    simpa using h2
  have hstep : ¬ (q - (⌊q⌋ : ℚ) < 1/2) → ⌊q⌋ + 1 ≤ 0 := by
    intro h1
    push_neg at h1
    have hfle : (⌊q⌋ : ℚ) ≤ q := Int.floor_le q
    have h3 : ((⌊q⌋ + 1 : ℤ) : ℚ) ≤ 1/2 := by push_cast; linarith
    have h4 : ((⌊q⌋ + 1 : ℤ) : ℚ) < 1 := lt_of_le_of_lt h3 (by norm_num)
    exact_mod_cast Int.lt_add_one_iff.mp (by exact_mod_cast h4)
  simp only [roundHalfEven]
  split
  · exact hfl
  · split
    · next h1 _ =>
      exact hstep (by push_neg; linarith)
    · split
      · exact hfl
      · next h1 h2 _ =>
        exact hstep (by push_neg; linarith)

lemma round2_nonneg (q : ℚ) (h : 0 ≤ q) : 0 ≤ round2 q := by
  unfold round2
  have := roundHalfEven_nonneg (q * 100) (by positivity)
  positivity

lemma round2_nonpos (q : ℚ) (h : q ≤ 0) : round2 q ≤ 0 := by
  unfold round2
  have h1 : roundHalfEven (q * 100) ≤ 0 :=
    roundHalfEven_nonpos (q * 100) (by nlinarith)
  have h2 : ((roundHalfEven (q * 100) : ℤ) : ℚ) ≤ 0 := by exact_mod_cast h1
  linarith

lemma signWrt_round2 (t : String) (a : ℚ) (h : signWrt t a) : signWrt t (round2 a) :=
  ⟨fun hi => round2_nonneg a (h.1 hi), fun hi => round2_nonpos a (h.2 hi)⟩

lemma signWrt_zero (t : String) : signWrt t 0 :=
  ⟨fun _ => le_refl 0, fun _ => le_refl 0⟩

lemma signWrt_of_ne (t : String) (a : ℚ) (ht : ¬ t = "income") (h : a ≤ 0) : signWrt t a :=
  ⟨fun hi => absurd hi ht, fun _ => h⟩

lemma signWrt_income (a : ℚ) (h : 0 ≤ a) : signWrt "income" a :=
  ⟨fun _ => h, fun hi => absurd rfl hi⟩

lemma removeAt_forall {α : Type} (P : α → Prop) {m : List (Int × List α)} (day : Int)
    (hm : ∀ e ∈ m, ∀ p ∈ e.2, P p) :
    ∀ e ∈ removeAt m day, ∀ p ∈ e.2, P p :=
  fun e he => hm e (List.mem_of_mem_filter he)

lemma setAt_forall {α : Type} (P : α → Prop) {m : List (Int × List α)} (day : Int)
    {xs : List α} (hm : ∀ e ∈ m, ∀ p ∈ e.2, P p) (hxs : ∀ p ∈ xs, P p) :
    ∀ e ∈ setAt m day xs, ∀ p ∈ e.2, P p := by
  intro e he
  unfold setAt at he
  split at he
  · obtain ⟨a, ha, hfa⟩ := List.mem_map.mp he
    by_cases hd : (a.1 == day) = true
    · rw [if_pos hd] at hfa
      rw [← hfa]
      exact hxs
    · rw [if_neg hd] at hfa
      rw [← hfa]
      exact hm a ha
  · rcases List.mem_append.mp he with h1 | h1
    · exact hm e h1
    · have he2 : e = (day, xs) := by simpa using h1
      rw [he2]
      exact hxs

lemma appendAt_forall {α : Type} (P : α → Prop) {m : List (Int × List α)} (day : Int)
    {x : α} (hm : ∀ e ∈ m, ∀ p ∈ e.2, P p) (hx : P x) :
    ∀ e ∈ appendAt m day x, ∀ p ∈ e.2, P p := by
  intro e he
  unfold appendAt at he
  split at he
  · obtain ⟨a, ha, hfa⟩ := List.mem_map.mp he
    by_cases hd : (a.1 == day) = true
    · rw [if_pos hd] at hfa
      rw [← hfa]
      intro p hp
      rcases List.mem_append.mp hp with h1 | h1
      · exact hm a ha p h1
      · rw [List.mem_singleton.mp h1]
        exact hx
    · rw [if_neg hd] at hfa
      rw [← hfa]
      exact hm a ha
  · rcases List.mem_append.mp he with h1 | h1
    · exact hm e h1
    · have he2 : e = (day, [x]) := by simpa using h1
      rw [he2]
      intro p hp
      rw [List.mem_singleton.mp hp]
      exact hx

lemma lookupAt_forall {α : Type} (P : α → Prop) {m : List (Int × List α)} (day : Int)
    (hm : ∀ e ∈ m, ∀ p ∈ e.2, P p) : ∀ p ∈ lookupAt m day, P p := by
  intro p hp
  unfold lookupAt at hp
  cases hf : m.find? (fun e => e.1 == day) with
  | none =>
    rw [hf] at hp
    exact absurd hp (by simp)
  | some e =>
    rw [hf] at hp
    exact hm e (List.mem_of_find?_eq_some hf) p (by simpa using hp)

lemma lotteryRoll_nonneg (src : RngSrc) (rng : Rng) (hsrc : RngOk src) :
    0 ≤ (lotteryRoll src rng).1 := by
  have h1 := (hsrc rng.u).1
  have h2 := (hsrc (rng.u + 1)).1
  simp only [lotteryRoll, Rng.nextU]
  split
  · exact le_refl 0
  · split
    · dsimp only
      nlinarith
    · dsimp only
      nlinarith

lemma instantiate_event_sign_amount (src : RngSrc) (scn : Scenario) (day : Int)
    (st : EngineState) (o : Option ℚ) (e : String) (rng : Rng)
    (hspec : amountOK scn.amount) (hsrc : RngOk src)
    (ho : ∀ v, o = some v → signWrt scn.stype v) :
    signWrt scn.stype (instantiate_event src scn day st o e rng).1.amount := by
  have h := instantiate_event_sign src scn day st o e rng hspec hsrc ho
  unfold eventSignOK at h
  rwa [(instantiate_event_fields src scn day st o e rng).2.1] at h

lemma realizeOne_sign (src : RngSrc) (cat : List Scenario) (today : Int)
    (p : SpawnPayload) (st : EngineState) (rng : Rng)
    (hcat : CatalogOk cat) (hsrc : RngOk src) (hp : payloadOK cat p) :
    ∀ ev, (realizeOne src cat today p st rng).1 = some ev → eventSignOK ev := by
  intro ev hev
  unfold realizeOne at hev
  by_cases hl : p.spawn = "lottery_result"
  · rw [if_pos hl] at hev
    cases hf : findById cat "lottery_result" with
    | none =>
      rw [hf] at hev
      exact absurd hev (by simp)
    | some scn =>
      rw [hf] at hev
      have hev2 : (instantiate_event src scn today st (some (lotteryRoll src rng).1)
          (lotteryRoll src rng).2.1 (lotteryRoll src rng).2.2).1 = ev := by simpa using hev
      rw [← hev2]
      apply instantiate_event_sign
      · exact hcat.1 scn (findById_id hf).2
      · exact hsrc
      · intro v hv
        have hv2 : (lotteryRoll src rng).1 = v := by simpa using hv
        rw [hcat.2.2.1 scn hf, ← hv2]
        exact signWrt_income _ (lotteryRoll_nonneg src rng hsrc)
  · rw [if_neg hl] at hev
    cases hf : findById cat p.spawn with
    | none =>
      rw [hf] at hev
      exact absurd hev (by simp)
    | some scn =>
      rw [hf] at hev
      have hev2 : (instantiate_event src scn today st p.overrideAmount p.extraDesc rng).1
          = ev := by simpa using hev
      rw [← hev2]
      apply instantiate_event_sign
      · exact hcat.1 scn (findById_id hf).2
      · exact hsrc
      · exact hp scn hf

lemma realizeList_sign (src : RngSrc) (cat : List Scenario) (today : Int)
    (hcat : CatalogOk cat) (hsrc : RngOk src) :
    ∀ (ps : List SpawnPayload) (st : EngineState) (rng : Rng),
    (∀ p ∈ ps, payloadOK cat p) →
    ∀ ev ∈ (realizeList src cat today ps st rng).1, eventSignOK ev := by
  intro ps
  induction ps with
  | nil =>
    intro st rng _ ev hev
    simp [realizeList] at hev
  | cons p ps ih =>
    intro st rng hps ev hev
    simp only [realizeList] at hev
    cases h1 : (realizeOne src cat today p st rng).1 with
    | none =>
      rw [h1] at hev
      exact ih _ _ (fun q hq => hps q (List.mem_cons_of_mem _ hq)) ev hev
    | some e0 =>
      rw [h1] at hev
      dsimp only at hev
      rcases List.mem_cons.mp hev with h2 | h2
      · rw [h2]
        exact realizeOne_sign src cat today p st rng hcat hsrc (hps p (by simp)) e0 h1
      · exact ih _ _ (fun q hq => hps q (List.mem_cons_of_mem _ hq)) ev h2

lemma forcedOfferOf_ok (cat : List Scenario) (ev : CommittedEvent) (day : Int)
    (oid : Nat) (label : String) (hev : eventSignOK ev) :
    offerOK cat (forcedOfferOf ev day oid label) := by
  refine ⟨?_, ?_⟩
  · intro opt hopt
    have ho2 : opt =
        ({ code := "forced", label := label, amountNow := ev.amount, triggers := [],
           pledgeTotal := none } : OfferOption) := by
      simpa [forcedOfferOf] using hopt
    rw [ho2]
    refine ⟨hev, ?_⟩
    intro tr htr
    exact absurd htr (by simp)
  · intro fe hfe
    have hfe2 : ev = fe := by simpa [forcedOfferOf] using hfe
    rw [← hfe2]
    exact hev

lemma assignForced_sign (cat : List Scenario) (day : Int) (label : String) :
    ∀ (evs : List CommittedEvent) (st : EngineState),
    (∀ ev ∈ evs, eventSignOK ev) →
    ∀ o ∈ (assignForced day label evs st).1, offerOK cat o := by
  intro evs
  induction evs with
  | nil =>
    intro st _ o ho
    simp [assignForced] at ho
  | cons ev evs ih =>
    intro st hevs o ho
    simp only [assignForced] at ho
    rcases List.mem_cons.mp ho with h1 | h1
    · rw [h1]
      exact forcedOfferOf_ok cat ev day st.uidCounter label (hevs ev (by simp))
    · exact ih _ (fun e he => hevs e (List.mem_cons_of_mem _ he)) o h1

lemma optionOK_map_round2 (cat : List Scenario) (t : String) (l : List OfferOption)
    (h : ∀ o ∈ l, optionOK cat t o) :
    ∀ o ∈ l.map (fun o => { o with amountNow := round2 o.amountNow }), optionOK cat t o := by
  intro o ho
  obtain ⟨a, ha, hfa⟩ := List.mem_map.mp ho
  rw [← hfa]
  obtain ⟨h1, h2⟩ := h a ha
  exact ⟨signWrt_round2 t a.amountNow h1, h2⟩

/-- Sign-soundness of the whole option menu: every option's settle-now
amount respects the scenario category's sign, and every trigger override
respects its spawn target's category sign. -/
lemma build_options_sign (src : RngSrc) (cat : List Scenario) (scn : Scenario) (amt : ℚ)
    (rng : Rng) (hamt : signWrt scn.stype amt)
    (hid : ∀ s, findById cat scn.id = some s → s.stype = scn.stype)
    (hdp : ∀ s, findById cat "deferred_payment" = some s → ¬ s.stype = "income")
    (hlf : ∀ s, findById cat "late_fee_generic" = some s → ¬ s.stype = "income") :
    ∀ o ∈ (build_options src scn amt rng).1, optionOK cat scn.stype o := by
  unfold build_options
  dsimp only
  apply optionOK_map_round2
  by_cases hb : scn.stype = "bill"
  · rw [if_pos hb]
    have hni : ¬ scn.stype = "income" := by rw [hb]; decide
    have hneg : amt ≤ 0 := hamt.2 hni
    have hfee : 0 ≤ pickCum [15, 25, 35, 45] [1, 1, 1, 1] ((rng.nextU src).1 * 4) := by
      apply pickCum_nonneg
      intro x hx
      simp only [List.mem_cons, List.mem_singleton, List.not_mem_nil, or_false] at hx
      rcases hx with rfl | rfl | rfl | rfl <;> norm_num
    dsimp only
    intro o ho
    simp only [List.mem_cons, List.mem_singleton, List.not_mem_nil, or_false] at ho
    rcases ho with rfl | rfl | rfl
    · refine ⟨signWrt_of_ne _ _ hni hneg, ?_⟩
      intro tr htr
      exact absurd htr (by simp)
    · refine ⟨signWrt_of_ne _ _ hni (by nlinarith), ?_⟩
      intro tr htr
      have htr2 : tr = mkTrigger "deferred_payment" 3 1 (some (amt * 0.5 * 1.05))
          "Deferred remainder +5%" := by simpa using htr
      rw [htr2]
      intro s hsF v hv
      have hv2 : amt * 0.5 * 1.05 = v := by simpa [mkTrigger] using hv
      exact signWrt_of_ne _ _ (hdp s hsF) (by nlinarith)
    · refine ⟨signWrt_zero _, ?_⟩
      intro tr htr
      have htr2 : tr = mkTrigger "late_fee_generic" 5 0.9
          (some (-(pickCum [15, 25, 35, 45] [1, 1, 1, 1] ((rng.nextU src).1 * 4))))
          "Late fee" := by simpa using htr
      rw [htr2]
      intro s hsF v hv
      have hv2 : -(pickCum [15, 25, 35, 45] [1, 1, 1, 1] ((rng.nextU src).1 * 4)) = v := by
        simpa [mkTrigger] using hv
      exact signWrt_of_ne _ _ (hlf s hsF) (by nlinarith)
  · rw [if_neg hb]
    by_cases hx : scn.stype = "expense"
    · rw [if_pos hx]
      have hni : ¬ scn.stype = "income" := by rw [hx]; decide
      have hneg : amt ≤ 0 := hamt.2 hni
      dsimp only
      intro o ho
      simp only [List.mem_cons, List.mem_singleton, List.not_mem_nil, or_false] at ho
      rcases ho with rfl | rfl | rfl | rfl <;>
        refine ⟨?_, by intro tr htr; exact absurd htr (by simp)⟩
      · exact signWrt_zero _
      · exact signWrt_of_ne _ _ hni (by nlinarith)
      · exact hamt
      · exact signWrt_of_ne _ _ hni (by nlinarith)
    · rw [if_neg hx]
      by_cases hd : scn.stype = "donation"
      · rw [if_pos hd]
        have hni : ¬ scn.stype = "income" := by rw [hd]; decide
        have hbase : (0 : ℚ) ≤ max |amt| 10 := le_trans (by norm_num) (le_max_right _ _)
        dsimp only
        intro o ho
        simp only [List.mem_cons, List.mem_singleton, List.not_mem_nil, or_false] at ho
        rcases ho with rfl | rfl | rfl | rfl <;>
          refine ⟨?_, by intro tr htr; exact absurd htr (by simp)⟩
        · exact signWrt_zero _
        · refine signWrt_of_ne _ _ hni (neg_nonpos.mpr (le_min (by nlinarith) (by norm_num)))
        · exact signWrt_of_ne _ _ hni (neg_nonpos.mpr hbase)
        · refine signWrt_of_ne _ _ hni (neg_nonpos.mpr (le_min (by nlinarith) (by norm_num)))
      · rw [if_neg hd]
        by_cases hi : scn.stype = "income"
        · rw [if_pos hi]
          dsimp only
          intro o ho
          simp only [List.mem_cons, List.mem_singleton, List.not_mem_nil, or_false] at ho
          rcases ho with rfl | rfl | rfl
          · exact ⟨hamt, by intro tr htr; exact absurd htr (by simp)⟩
          · refine ⟨signWrt_zero _, ?_⟩
            intro tr htr
            have htr2 : tr = mkTrigger scn.id 1 1 (some amt) "Delayed income" := by
              simpa using htr
            rw [htr2]
            intro s hsF v hv
            have hv2 : amt = v := by simpa [mkTrigger] using hv
            rw [hid s hsF, ← hv2]
            exact hamt
          · exact ⟨signWrt_zero _, by intro tr htr; exact absurd htr (by simp)⟩
        · rw [if_neg hi]
          by_cases hs : scn.stype = "saving_pledge"
          · rw [if_pos hs]
            dsimp only
            intro o ho
            simp only [List.mem_cons, List.mem_singleton, List.not_mem_nil, or_false] at ho
            rcases ho with rfl | rfl | rfl | rfl <;>
              exact ⟨signWrt_zero _, by intro tr htr; exact absurd htr (by simp)⟩
          · rw [if_neg hs]
            by_cases hl : scn.stype = "lottery"
            · rw [if_pos hl]
              have hni : ¬ scn.stype = "income" := by rw [hl]; decide
              have htOK : trigOK cat (mkTrigger "lottery_result" 1 1 none "") := by
                intro s hsF v hv
                exact absurd hv (by simp [mkTrigger])
              have habs := abs_nonneg (specValue scn.amount 2)
              dsimp only
              intro o ho
              simp only [List.mem_cons, List.mem_singleton, List.not_mem_nil, or_false] at ho
              rcases ho with rfl | rfl | rfl
              · exact ⟨signWrt_zero _, by intro tr htr; exact absurd htr (by simp)⟩
              · refine ⟨signWrt_of_ne _ _ hni (neg_nonpos.mpr habs), ?_⟩
                intro tr htr
                have htr2 : tr = mkTrigger "lottery_result" 1 1 none "" := by simpa using htr
                rw [htr2]
                exact htOK
              · refine ⟨signWrt_of_ne _ _ hni (by dsimp only; nlinarith), ?_⟩
                intro tr htr
                have htr2 : tr = mkTrigger "lottery_result" 1 1 none "" := by simpa using htr
                rw [htr2]
                exact htOK
            · rw [if_neg hl]
              by_cases hge : 0 ≤ amt
              · rw [if_pos hge]
                dsimp only
                intro o ho
                simp only [List.mem_cons, List.mem_singleton, List.not_mem_nil, or_false] at ho
                rcases ho with rfl | rfl | rfl
                · exact ⟨hamt, by intro tr htr; exact absurd htr (by simp)⟩
                · refine ⟨signWrt_zero _, ?_⟩
                  intro tr htr
                  have htr2 : tr = mkTrigger scn.id 1 1 (some amt) "Delayed" := by
                    simpa using htr
                  rw [htr2]
                  intro s hsF v hv
                  have hv2 : amt = v := by simpa [mkTrigger] using hv
                  rw [hid s hsF, ← hv2]
                  exact hamt
                · exact ⟨signWrt_zero _, by intro tr htr; exact absurd htr (by simp)⟩
              · rw [if_neg hge]
                dsimp only
                intro o ho
                simp only [List.mem_cons, List.mem_singleton, List.not_mem_nil, or_false] at ho
                rcases ho with rfl | rfl
                · exact ⟨signWrt_zero _, by intro tr htr; exact absurd htr (by simp)⟩
                · exact ⟨hamt, by intro tr htr; exact absurd htr (by simp)⟩

lemma detOffers_sign (src : RngSrc) (cat : List Scenario) (user : UserProfile) (day : Int)
    (hcat : CatalogOk cat) (hsrc : RngOk src) (huser : UserOk user) :
    ∀ (l : List Scenario) (st : EngineState) (rng : Rng), (∀ s ∈ l, s ∈ cat) →
    ∀ o ∈ (detOffers src user day l st rng).1, offerOK cat o := by
  intro l
  induction l with
  | nil =>
    intro st rng _ o ho
    simp [detOffers] at ho
  | cons scn rest ih =>
    intro st rng hsub o ho
    have hmem : scn ∈ cat := hsub scn (by simp)
    have hrest : ∀ s ∈ rest, s ∈ cat := fun s hs => hsub s (List.mem_cons_of_mem _ hs)
    simp only [detOffers] at ho
    by_cases hc : (scn.deterministic && is_scheduled_today scn user day) = true
    · rw [if_pos hc] at ho
      by_cases hp : scn.name = "Paycheck"
      · rw [if_pos hp] at ho
        dsimp only at ho
        rcases List.mem_cons.mp ho with h1 | h1
        · rw [h1]
          refine ⟨?_, by intro fe hfe; exact absurd hfe (by simp)⟩
          intro opt hopt
          dsimp only at hopt ⊢
          refine build_options_sign src cat scn _ _ ?_ (hcat.2.1 scn hmem) hcat.2.2.2.1
            hcat.2.2.2.2.1 opt hopt
          rw [instantiate_event_override, hcat.2.2.2.2.2.2 scn hmem hp]
          exact signWrt_income _ huser
        · exact ih _ _ hrest o h1
      · rw [if_neg hp] at ho
        dsimp only at ho
        rcases List.mem_cons.mp ho with h1 | h1
        · rw [h1]
          refine ⟨?_, by intro fe hfe; exact absurd hfe (by simp)⟩
          intro opt hopt
          dsimp only at hopt ⊢
          refine build_options_sign src cat scn _ _ ?_ (hcat.2.1 scn hmem) hcat.2.2.2.1
            hcat.2.2.2.2.1 opt hopt
          exact instantiate_event_sign_amount src scn day st none "" rng
            (hcat.1 scn hmem) hsrc (by intro v hv; exact absurd hv (by simp))
        · exact ih _ _ hrest o h1
    · rw [if_neg hc] at ho
      exact ih _ _ hrest o ho

lemma probAccept_sign (src : RngSrc) (cat : List Scenario) (user : UserProfile) (day : Int)
    (cap : Nat) (hcat : CatalogOk cat) (hsrc : RngOk src) :
    ∀ (l : List (Scenario × ℝ)) (chosen : Nat) (st : EngineState) (rng : Rng),
    (∀ sp ∈ l, sp.1 ∈ cat) →
    ∀ o ∈ (probAccept src user day cap l chosen st rng).1, offerOK cat o := by
  intro l
  induction l with
  | nil =>
    intro chosen st rng _ o ho
    simp [probAccept] at ho
  | cons sp rest ih =>
    intro chosen st rng hsub o ho
    rcases sp with ⟨scn, pr⟩
    have hmem : scn ∈ cat := hsub (scn, pr) (by simp)
    have hrest : ∀ q ∈ rest, q.1 ∈ cat := fun q hq => hsub q (List.mem_cons_of_mem _ hq)
    simp only [probAccept] at ho
    by_cases hcp : cap ≤ chosen
    · rw [if_pos hcp] at ho
      exact absurd ho (by simp)
    · rw [if_neg hcp] at ho
      by_cases hbn : (((rng.nextU src).1 : ℚ) : ℝ) < pr
      · rw [if_pos hbn] at ho
        dsimp only at ho
        rcases List.mem_cons.mp ho with h1 | h1
        · rw [h1]
          refine ⟨?_, by intro fe hfe; exact absurd hfe (by simp)⟩
          intro opt hopt
          dsimp only at hopt ⊢
          refine build_options_sign src cat scn _ _ ?_ (hcat.2.1 scn hmem) hcat.2.2.2.1
            hcat.2.2.2.2.1 opt hopt
          exact instantiate_event_sign_amount src scn day st none "" (rng.nextU src).2
            (hcat.1 scn hmem) hsrc (by intro v hv; exact absurd hv (by simp))
        · exact ih _ _ _ hrest o h1
      · rw [if_neg hbn] at ho
        exact ih _ _ _ hrest o ho

lemma sortPool_mem (pool : List (Scenario × ℝ)) (sp : Scenario × ℝ)
    (h : sp ∈ sortPool pool) : sp ∈ pool := by
  unfold sortPool at h
  exact List.mem_mergeSort.mp h

lemma contribAmt_nonneg (plan : SavingPlan) (today : Int)
    (h : ¬ plan.remaining ≤ 0) : 0 ≤ contribAmt plan today := by
  unfold contribAmt
  dsimp only
  apply le_min
  · exact le_trans (by norm_num) (le_max_right _ _)
  · linarith [not_le.mp h]

lemma contribEmits_remaining (plan : SavingPlan) (today : Int)
    (h : contribEmits plan today = true) : ¬ plan.remaining ≤ 0 := by
  unfold contribEmits at h
  have h2 := (by simpa using h :
    (¬ plan.remaining ≤ 0 ∧ ¬ plan.dueDay < today) ∧ planDueToday plan today = true)
  exact h2.1.1

lemma contribStep_sign (src : RngSrc) (cat : List Scenario) (today : Int)
    (hcat : CatalogOk cat) (hsrc : RngOk src) :
    ∀ (ps : List SavingPlan) (st : EngineState) (rng : Rng),
    ∀ ev ∈ (contribStep src cat today ps st rng).1, eventSignOK ev := by
  intro ps
  induction ps with
  | nil =>
    intro st rng ev hev
    simp [contribStep] at hev
  | cons plan rest ih =>
    intro st rng ev hev
    simp only [contribStep] at hev
    by_cases he : contribEmits plan today = true
    · rw [if_pos he] at hev
      cases hf : findById cat "saving_contribution" with
      | none =>
        rw [hf] at hev
        dsimp only at hev
        exact ih _ _ ev hev
      | some scn =>
        rw [hf] at hev
        dsimp only at hev
        rcases List.mem_cons.mp hev with h1 | h1
        · rw [h1]
          apply instantiate_event_sign
          · exact hcat.1 scn (findById_id hf).2
          · exact hsrc
          · intro v hv
            have hv2 : -(contribAmt plan today) = v := by simpa using hv
            refine signWrt_of_ne _ _ (hcat.2.2.2.2.2.1 scn hf) ?_
            have hc0 := contribAmt_nonneg plan today (contribEmits_remaining plan today he)
            linarith [hv2 ▸ (neg_nonpos.mpr hc0)]
        · exact ih _ _ ev h1
    · rw [if_neg he] at hev
      dsimp only at hev
      exact ih _ _ ev hev

/-- Every offer stored by a day of proposals respects the sign convention. -/
lemma propose_day_offers (src : RngSrc) (cat : List Scenario) (user : UserProfile)
    (day : Int) (mx : Nat) (st : EngineState) (rng : Rng)
    (hcat : CatalogOk cat) (hsrc : RngOk src) (huser : UserOk user)
    (hdel : ∀ e ∈ st.delayedEvents, ∀ p ∈ e.2, payloadOK cat p) :
    ∀ o ∈ (propose_day src cat user day mx st rng).1, offerOK cat o := by
  simp only [propose_day]
  set rd := realize_delayed src cat day st rng with hrddef
  set fo := assignForced day "Forced" rd.1 rd.2.1 with hfodef
  set dd := detOffers src user day cat fo.2 rd.2.2 with hdddef
  set pa := probAccept src user day mx (sortPool (probPool cat user day dd.2.1)) 0
    dd.2.1 dd.2.2 with hpadef
  set cs := contribStep src cat day pa.2.1.activeSavingPlans pa.2.1 pa.2.2 with hcsdef
  set co := assignForced day "Scheduled contribution" cs.1 cs.2.2.1 with hcodef
  have hfoOK : ∀ o ∈ fo.1, offerOK cat o := by
    rw [hfodef]
    apply assignForced_sign cat day "Forced" rd.1 rd.2.1
    rw [hrddef]
    unfold realize_delayed
    exact realizeList_sign src cat day hcat hsrc _ _ _ (lookupAt_forall _ day hdel)
  have hddOK : ∀ o ∈ dd.1, offerOK cat o := by
    rw [hdddef]
    exact detOffers_sign src cat user day hcat hsrc huser cat _ _ (fun s hs => hs)
  have hpaOK : ∀ o ∈ pa.1, offerOK cat o := by
    rw [hpadef]
    apply probAccept_sign src cat user day mx hcat hsrc
    intro sp hsp
    exact (probPool_mem cat user day dd.2.1 sp (sortPool_mem _ sp hsp)).1
  have hcoOK : ∀ o ∈ co.1, offerOK cat o := by
    rw [hcodef]
    apply assignForced_sign cat day "Scheduled contribution" cs.1 cs.2.2.1
    rw [hcsdef]
    exact contribStep_sign src cat day hcat hsrc _ _ _
  intro o ho
  rcases List.mem_append.mp ho with h1 | h1
  · rcases List.mem_append.mp h1 with h2 | h2
    · rcases List.mem_append.mp h2 with h3 | h3
      · exact hfoOK o h3
      · exact hddOK o h3
    · exact hpaOK o h2
  · exact hcoOK o h1

/-- `propose_day` preserves the sign invariant. -/
lemma propose_day_inv (src : RngSrc) (cat : List Scenario) (user : UserProfile)
    (day : Int) (mx : Nat) (st : EngineState) (rng : Rng)
    (hcat : CatalogOk cat) (hsrc : RngOk src) (huser : UserOk user)
    (hinv : Inv cat st) : Inv cat (propose_day src cat user day mx st rng).2.1 := by
  obtain ⟨hh, hp, hd⟩ := hinv
  have hcore := propose_day_core src cat user day mx st rng
  refine ⟨?_, ?_, ?_⟩
  · rw [hcore.2.1]
    exact hh
  · rw [hcore.2.2.2.1]
    exact setAt_forall _ day hp
      (propose_day_offers src cat user day mx st rng hcat hsrc huser hd)
  · rw [hcore.2.2.1]
    exact removeAt_forall _ day hd

lemma schedule_trigger_pending (src : RngSrc) (today : Int) (trig : OptionTrigger)
    (sid : Nat) (st : EngineState) (rng : Rng) :
    (schedule_trigger src today trig sid st rng).1.pendingOffers = st.pendingOffers := by
  unfold schedule_trigger
  split
  split <;> rfl

lemma schedule_trigger_delayed_ok (src : RngSrc) (cat : List Scenario) (today : Int)
    (trig : OptionTrigger) (sid : Nat) (st : EngineState) (rng : Rng)
    (htr : trigOK cat trig)
    (hd : ∀ e ∈ st.delayedEvents, ∀ p ∈ e.2, payloadOK cat p) :
    ∀ e ∈ (schedule_trigger src today trig sid st rng).1.delayedEvents,
      ∀ p ∈ e.2, payloadOK cat p := by
  unfold schedule_trigger
  split
  split
  · exact hd
  · exact appendAt_forall _ _ hd htr

lemma triggersFold_pending (src : RngSrc) (today : Int) (sid : Nat) :
    ∀ (ts : List OptionTrigger) (st : EngineState) (rng : Rng),
    (triggersFold src today sid ts st rng).1.pendingOffers = st.pendingOffers := by
  intro ts
  induction ts with
  | nil => intro st rng; rfl
  | cons t rest ih =>
    intro st rng
    simp only [triggersFold]
    exact (ih _ _).trans (schedule_trigger_pending src today t sid st rng)

lemma triggersFold_delayed_ok (src : RngSrc) (cat : List Scenario) (today : Int)
    (sid : Nat) :
    ∀ (ts : List OptionTrigger) (st : EngineState) (rng : Rng),
    (∀ t ∈ ts, trigOK cat t) →
    (∀ e ∈ st.delayedEvents, ∀ p ∈ e.2, payloadOK cat p) →
    ∀ e ∈ (triggersFold src today sid ts st rng).1.delayedEvents,
      ∀ p ∈ e.2, payloadOK cat p := by
  intro ts
  induction ts with
  | nil =>
    intro st rng _ hd
    exact hd
  | cons t rest ih =>
    intro st rng hts hd
    simp only [triggersFold]
    exact ih _ _ (fun q hq => hts q (List.mem_cons_of_mem _ hq))
      (schedule_trigger_delayed_ok src cat today t sid st rng (hts t (by simp)) hd)

lemma dummyOption_ok (cat : List Scenario) (t : String) : optionOK cat t dummyOption :=
  ⟨signWrt_zero t, by intro tr htr; exact absurd htr (by simp [dummyOption])⟩

lemma getD_headD_mem {α : Type} (l : List α) (p : α → Bool) (d : α) :
    (l.find? p).getD (l.headD d) ∈ l ∨ (l.find? p).getD (l.headD d) = d := by
  cases l with
  | nil =>
    right
    simp
  | cons a t =>
    cases hf : (a :: t).find? p with
    | some x =>
      left
      simpa using List.mem_of_find?_eq_some hf
    | none =>
      left
      simp

/-- `commitPick` keeps the sign invariant: the settled event carries the
picked option sign, and the scheduled triggers enqueue sign-correct
payloads. -/
lemma commitPick_inv (src : RngSrc) (cat : List Scenario) (day : Int) (offer : Offer)
    (picked : OfferOption) (st : EngineState) (rng : Rng)
    (hopt : optionOK cat offer.otype picked)
    (hh : ∀ ev ∈ st.history, eventSignOK ev)
    (hp : ∀ e ∈ st.pendingOffers, ∀ o ∈ e.2, offerOK cat o)
    (hd : ∀ e ∈ st.delayedEvents, ∀ p ∈ e.2, payloadOK cat p) :
    (∀ ev ∈ (commitPick src day offer picked st rng).2.1.history, eventSignOK ev) ∧
    (∀ e ∈ (commitPick src day offer picked st rng).2.1.pendingOffers,
      ∀ o ∈ e.2, offerOK cat o) ∧
    (∀ e ∈ (commitPick src day offer picked st rng).2.1.delayedEvents,
      ∀ p ∈ e.2, payloadOK cat p) := by
  unfold commitPick
  dsimp only
  cases hpl : picked.pledgeTotal with
  | none =>
    dsimp only
    refine ⟨?_, ?_, ?_⟩
    · rw [(triggersFold_frame src day st.uidCounter picked.triggers _ rng).2]
      dsimp only
      intro ev hev2
      rcases List.mem_append.mp hev2 with h1 | h1
      · exact hh ev h1
      · rw [List.mem_singleton.mp h1]
        exact hopt.1
    · rw [triggersFold_pending src day st.uidCounter picked.triggers _ rng]
      exact hp
    · exact triggersFold_delayed_ok src cat day st.uidCounter picked.triggers _ rng
        hopt.2 hd
  | some total =>
    dsimp only
    have haddh : ∀ s : EngineState,
        (addPlan offer.name total day 90 "weekly" s).history = s.history := fun s => rfl
    have haddp : ∀ s : EngineState,
        (addPlan offer.name total day 90 "weekly" s).pendingOffers = s.pendingOffers :=
      fun s => rfl
    have haddd : ∀ s : EngineState,
        (addPlan offer.name total day 90 "weekly" s).delayedEvents = s.delayedEvents :=
      fun s => rfl
    refine ⟨?_, ?_, ?_⟩
    · rw [haddh, (triggersFold_frame src day st.uidCounter picked.triggers _ rng).2]
      dsimp only
      intro ev hev2
      rcases List.mem_append.mp hev2 with h1 | h1
      · exact hh ev h1
      · rw [List.mem_singleton.mp h1]
        exact hopt.1
    · rw [haddp, triggersFold_pending src day st.uidCounter picked.triggers _ rng]
      exact hp
    · rw [haddd]
      exact triggersFold_delayed_ok src cat day st.uidCounter picked.triggers _ rng
        hopt.2 hd

lemma commitOne_inv (src : RngSrc) (cat : List Scenario) (day : Int)
    (choices : Nat → Option String) (offer : Offer) (st : EngineState) (rng : Rng)
    (hoff : offerOK cat offer)
    (hh : ∀ ev ∈ st.history, eventSignOK ev)
    (hp : ∀ e ∈ st.pendingOffers, ∀ o ∈ e.2, offerOK cat o)
    (hd : ∀ e ∈ st.delayedEvents, ∀ p ∈ e.2, payloadOK cat p) :
    (∀ ev ∈ (commitOne src day choices offer st rng).2.1.history, eventSignOK ev) ∧
    (∀ e ∈ (commitOne src day choices offer st rng).2.1.pendingOffers,
      ∀ o ∈ e.2, offerOK cat o) ∧
    (∀ e ∈ (commitOne src day choices offer st rng).2.1.delayedEvents,
      ∀ p ∈ e.2, payloadOK cat p) := by
  have hpickOK : ∀ code : String, optionOK cat offer.otype
      ((offer.options.find? (fun o => o.code == code)).getD
        (offer.options.headD dummyOption)) := by
    intro code
    rcases getD_headD_mem offer.options (fun o => o.code == code) dummyOption with h | h
    · exact hoff.1 _ h
    · rw [h]
      exact dummyOption_ok cat offer.otype
  unfold commitOne
  dsimp only
  cases hfe : offer.forcedEvent with
  | none =>
    exact commitPick_inv src cat day offer _ st rng (hpickOK _) hh hp hd
  | some fe =>
    dsimp only
    by_cases hc : ((choices offer.offerId).getD
        ((offer.options.headD dummyOption)).code) = "forced"
    · rw [if_pos hc]
      dsimp only
      refine ⟨?_, hp, hd⟩
      intro ev hev
      rcases List.mem_append.mp hev with h1 | h1
      · exact hh ev h1
      · rw [List.mem_singleton.mp h1]
        exact hoff.2 fe hfe
    · rw [if_neg hc]
      exact commitPick_inv src cat day offer _ st rng (hpickOK _) hh hp hd

lemma commitList_inv (src : RngSrc) (cat : List Scenario) (day : Int)
    (choices : Nat → Option String) :
    ∀ (offers : List Offer) (st : EngineState) (rng : Rng),
    (∀ o ∈ offers, offerOK cat o) →
    (∀ ev ∈ st.history, eventSignOK ev) →
    (∀ e ∈ st.pendingOffers, ∀ o ∈ e.2, offerOK cat o) →
    (∀ e ∈ st.delayedEvents, ∀ p ∈ e.2, payloadOK cat p) →
    (∀ ev ∈ (commitList src day choices offers st rng).2.1.history, eventSignOK ev) ∧
    (∀ e ∈ (commitList src day choices offers st rng).2.1.pendingOffers,
      ∀ o ∈ e.2, offerOK cat o) ∧
    (∀ e ∈ (commitList src day choices offers st rng).2.1.delayedEvents,
      ∀ p ∈ e.2, payloadOK cat p) := by
  intro offers
  induction offers with
  | nil =>
    intro st rng _ hh hp hd
    exact ⟨hh, hp, hd⟩
  | cons o os ih =>
    intro st rng hoffs hh hp hd
    simp only [commitList]
    have h1 := commitOne_inv src cat day choices o st rng (hoffs o (by simp)) hh hp hd
    exact ih _ _ (fun q hq => hoffs q (List.mem_cons_of_mem _ hq)) h1.1 h1.2.1 h1.2.2

/-- `commit_day` preserves the sign invariant. -/
lemma commit_day_inv (src : RngSrc) (cat : List Scenario) (day : Int)
    (choices : Nat → Option String) (st : EngineState) (rng : Rng)
    (hinv : Inv cat st) : Inv cat (commit_day src day choices st rng).2.1 := by
  obtain ⟨hh, hp, hd⟩ := hinv
  unfold commit_day
  exact commitList_inv src cat day choices (lookupAt st.pendingOffers day) _ rng
    (lookupAt_forall _ day hp) hh (removeAt_forall _ day hp) hd

/-- A full engine run preserves the sign invariant. -/
lemma engineRun_inv (src : RngSrc) (cat : List Scenario)
    (hcat : CatalogOk cat) (hsrc : RngOk src) :
    ∀ (inputs : List StepInput) (st : EngineState) (rng : Rng),
    (∀ i ∈ inputs, UserOk i.user) → Inv cat st →
    Inv cat (engineRun src cat inputs st rng) := by
  intro inputs
  induction inputs with
  | nil =>
    intro st rng _ hinv
    exact hinv
  | cons i is ih =>
    intro st rng husers hinv
    simp only [engineRun]
    apply ih _ _ (fun j hj => husers j (List.mem_cons_of_mem _ hj))
    apply commit_day_inv src cat i.day i.choices _ _
    exact propose_day_inv src cat i.user i.day 6 st rng hcat hsrc
      (husers i (by simp)) hinv

/-- C7: throughout an engine run (any day sequence, from any sign-clean
starting state, in particular the fresh one), every event in history
satisfies the category sign convention: an event of category income has a
non-negative amount and an event of any other category has a non-positive
amount.  The run covers events settled from every option of every offer,
forced delayed-spawn events, savings contributions, and trigger override
amounts, given that the catalog magnitudes are non-negative, ids are
category-consistent, the reserved spawn targets have their expected
categories, and the pay-cycle amount is non-negative (all true of the
default catalog and profiles). -/
theorem history_sign_invariant (src : RngSrc) (cat : List Scenario)
    (inputs : List StepInput) (st : EngineState) (rng : Rng)
    (hcat : CatalogOk cat) (hsrc : RngOk src)
    (husers : ∀ i ∈ inputs, UserOk i.user) (hst : Inv cat st) :
    ∀ ev ∈ (engineRun src cat inputs st rng).history,
      (ev.etype = "income" → 0 ≤ ev.amount) ∧ (¬ ev.etype = "income" → ev.amount ≤ 0) :=
  (engineRun_inv src cat hcat hsrc inputs st rng husers hst).1

/-- C7 witness: a concrete one-day run over the reserved late-fee catalog
from the fresh state keeps every history event on the right side of
zero. -/
theorem history_sign_invariant_witness :
    CatalogOk [lateFeeGenericScn] ∧ RngOk src0 ∧
    Inv [lateFeeGenericScn] (initState 1000 2000) ∧
    (∀ ev ∈ (engineRun src0 [lateFeeGenericScn]
        [{ user := user0, day := 0, choices := fun _ => none }]
        (initState 1000 2000) ⟨0, 0⟩).history,
      (ev.etype = "income" → 0 ≤ ev.amount) ∧ (¬ ev.etype = "income" → ev.amount ≤ 0)) := by
  have hcat : CatalogOk [lateFeeGenericScn] := by
    refine ⟨?_, ?_, ?_, ?_, ?_, ?_, ?_⟩
    · intro scn hscn
      rw [List.mem_singleton.mp hscn]
      intro x hx
      simp only [lateFeeGenericScn, List.mem_cons, List.mem_singleton, List.not_mem_nil,
        or_false] at hx
      rcases hx with rfl | rfl | rfl | rfl <;> norm_num
    · intro scn hscn s hs
      have h1 : scn = lateFeeGenericScn := List.mem_singleton.mp hscn
      subst h1
      have h2 : lateFeeGenericScn = s := by simpa [findById, lateFeeGenericScn] using hs
      rw [← h2]
    · intro s hs
      simp [findById, lateFeeGenericScn] at hs
    · intro s hs
      simp [findById, lateFeeGenericScn] at hs
    · intro s hs
      have h2 : lateFeeGenericScn = s := by simpa [findById, lateFeeGenericScn] using hs
      rw [← h2]
      simp [lateFeeGenericScn]
    · intro s hs
      simp [findById, lateFeeGenericScn] at hs
    · intro scn hscn hname
      rw [List.mem_singleton.mp hscn] at hname
      simp [lateFeeGenericScn] at hname
  have hsrc : RngOk src0 := by
    intro n
    constructor <;> norm_num [src0]
  have hinv : Inv [lateFeeGenericScn] (initState 1000 2000) := by
    refine ⟨?_, ?_, ?_⟩ <;> intro e he <;> simp [initState] at he
  refine ⟨hcat, hsrc, hinv, ?_⟩
  exact history_sign_invariant src0 [lateFeeGenericScn]
    [{ user := user0, day := 0, choices := fun _ => none }] (initState 1000 2000) ⟨0, 0⟩
    hcat hsrc
    (by
      intro i hi
      rw [List.mem_singleton.mp hi]
      norm_num [UserOk, user0])
    hinv

end ScenarioEngine
